import Mathlib

/-!
Verification of the client core of `octopus-network/ibc-rs`.

Shallow embedding of:
* `modules/src/ics10_grandpa/client_def.rs` — the GRANDPA `ClientDef` implementation;
* `crates/ibc/src/core/ics02_client/events.rs` — the client lifecycle events and
  their wire encodings;
* `relayer-cli/src/commands/query/connections.rs` — the `query connections` CLI command.

Machine integers (`u64`, `u8`, `u32`) are embedded as `Nat` with explicit `% 2^w`
where the source can overflow or truncate; byte strings (`Vec<u8>`, `&[u8]`) are
`List Nat` whose elements are meant to be `< 256` (the `u8` range is carried as a
hypothesis or checked by the decoders, exactly where the Rust type system carries it).
Fallible operations return `Except`/`Option`.
-/

namespace IbcRs

/-- Modelled from the spec: `Height` is `(revision_number: u64, revision_height: u64)`,
totally ordered lexicographically (the `Height` struct itself lives in
`crates/ibc/src/core/ics02_client/height.rs`, outside the provided sources). -/
structure Height where
  revision_number : Nat
  revision_height : Nat
deriving DecidableEq, Repr

/-- Modelled from the spec: strict lexicographic order on `(revision_number, revision_height)`. -/
def Height.lt (a b : Height) : Prop :=
  a.revision_number < b.revision_number ∨
    (a.revision_number = b.revision_number ∧ a.revision_height < b.revision_height)

instance : DecidablePred fun p : Height × Height => Height.lt p.1 p.2 := by
  intro p
  unfold Height.lt
  infer_instance

instance (a b : Height) : Decidable (Height.lt a b) := by
  unfold Height.lt
  infer_instance

/-- Modelled from the spec: the decimal string form of a height, as in the
scenario `(0,100)` ↦ `"0-100"` (`Display for Height` is outside the provided
sources; the spec fixes the form via its scenarios). -/
def Height.toDecimalString (h : Height) : String :=
  toString h.revision_number ++ "-" ++ toString h.revision_height

/-- Error kinds exposed by the core (spec §7); the embedding only needs the
kinds that the claims name. -/
inductive Error where
  | headerVerificationFailed
  | proofVerificationFailed
  | clientFrozen
  | malformedInput
deriving DecidableEq, Repr

/-- Modelled from the spec: the GRANDPA `Header` is the untrusted update payload
carrying a new height plus algorithm-specific finality data
(`modules/src/ics10_grandpa/header.rs` is outside the provided sources; only the
height is inspected by any claim, the finality payload stays opaque bytes). -/
structure GrandpaHeader where
  height : Height
  finality_payload : List Nat
deriving DecidableEq, Repr

/-- Modelled from the spec: the GRANDPA `ClientState` carries the latest trusted
`Height` (algorithm-specific trust parameters are elided;
`modules/src/ics10_grandpa/client_state.rs` is outside the provided sources). -/
structure GrandpaClientState where
  latest_height : Height
deriving DecidableEq, Repr

/-- Modelled from the spec: `ClientState::with_header` returns the client state
whose latest trusted height comes from the header. -/
def GrandpaClientState.with_header (_cs : GrandpaClientState) (h : GrandpaHeader) :
    GrandpaClientState :=
  { latest_height := h.height }

/-- Modelled from the spec: a GRANDPA `ConsensusState` is a commitment root plus
finality metadata for one height (`modules/src/ics10_grandpa/consensus_state.rs`
is outside the provided sources; claims treat it as an opaque value). -/
structure GrandpaConsensusState where
  data : List Nat
deriving DecidableEq, Repr

/-- Modelled from the spec: `ConsensusState::from(header)` derives the stored
consensus state from the header payload. -/
def GrandpaConsensusState.ofHeader (h : GrandpaHeader) : GrandpaConsensusState :=
  { data := h.finality_payload }

/-- Opaque commitment proof bytes (`CommitmentProofBytes`). -/
abbrev CommitmentProofBytes := List Nat

/-- Opaque commitment prefix (`CommitmentPrefix`). -/
abbrev CommitmentPrefix := List Nat

/-- Opaque commitment root (`CommitmentRoot`). -/
abbrev CommitmentRoot := List Nat

/-- Opaque Merkle proof (`ibc_proto ... MerkleProof`). -/
abbrev MerkleProof := List Nat

/-- Opaque `AnyConsensusState` expected value. -/
abbrev AnyConsensusState := List Nat

/-- Opaque `AnyClientState` expected value. -/
abbrev AnyClientState := List Nat

/-- Opaque `ConnectionEnd` / `ChannelEnd` expected values. -/
abbrev ConnectionEnd := List Nat

/-- Opaque `ChannelEnd`. -/
abbrev ChannelEnd := List Nat

/-- Validated text identifiers; embedded as their canonical string form. -/
abbrev ClientId := String

/-- Connection identifier. -/
abbrev ConnectionId := String

/-- Channel identifier. -/
abbrev ChannelId := String

/-- Port identifier. -/
abbrev PortId := String

/-- Packet sequence number (`u64`). -/
abbrev Sequence := Nat

namespace GrandpaClient

/-- `GrandpaClient::check_header_and_update_state`
(`modules/src/ics10_grandpa/client_def.rs:29-45`). In the source, the
height-monotonicity check is commented out, so the function unconditionally
returns `Ok` with the updated pair. -/
def check_header_and_update_state (client_state : GrandpaClientState)
    (header : GrandpaHeader) :
    Except Error (GrandpaClientState × GrandpaConsensusState) :=
  Except.ok (client_state.with_header header, GrandpaConsensusState.ofHeader header)

/-- `GrandpaClient::verify_client_consensus_state`
(`modules/src/ics10_grandpa/client_def.rs:47-58`): ignores every argument and
returns `Ok(())`. -/
def verify_client_consensus_state (_client_state : GrandpaClientState)
    (_height : Height) ( _prefix : CommitmentPrefix) (_proof : CommitmentProofBytes)
    (_client_id : ClientId) (_consensus_height : Height)
    (_expected_consensus_state : AnyConsensusState) : Except Error Unit :=
  Except.ok ()

/-- `GrandpaClient::verify_connection_state`
(`modules/src/ics10_grandpa/client_def.rs:60-70`): returns `Ok(())`. -/
def verify_connection_state (_client_state : GrandpaClientState)
    (_height : Height) ( _prefix : CommitmentPrefix) (_proof : CommitmentProofBytes)
    (_connection_id : Option ConnectionId) (_expected_connection_end : ConnectionEnd) :
    Except Error Unit :=
  Except.ok ()

/-- `GrandpaClient::verify_channel_state`
(`modules/src/ics10_grandpa/client_def.rs:72-83`): returns `Ok(())`. -/
def verify_channel_state (_client_state : GrandpaClientState)
    (_height : Height) ( _prefix : CommitmentPrefix) (_proof : CommitmentProofBytes)
    (_port_id : PortId) (_channel_id : ChannelId) (_expected_channel_end : ChannelEnd) :
    Except Error Unit :=
  Except.ok ()

/-- `GrandpaClient::verify_client_full_state`
(`modules/src/ics10_grandpa/client_def.rs:85-96`): returns `Ok(())`. -/
def verify_client_full_state (_client_state : GrandpaClientState)
    (_height : Height) (_root : CommitmentRoot) ( _prefix : CommitmentPrefix)
    (_client_id : ClientId) (_proof : CommitmentProofBytes)
    (_expected_client_state : AnyClientState) : Except Error Unit :=
  Except.ok ()

/-- `GrandpaClient::verify_packet_data`
(`modules/src/ics10_grandpa/client_def.rs:98-109`): returns `Ok(())` (`// Todo:`). -/
def verify_packet_data (_client_state : GrandpaClientState)
    (_height : Height) (_proof : CommitmentProofBytes) (_port_id : PortId)
    (_channel_id : ChannelId) (_seq : Sequence) (_data : String) : Except Error Unit :=
  Except.ok ()

/-- `GrandpaClient::verify_packet_acknowledgement`
(`modules/src/ics10_grandpa/client_def.rs:111-122`): returns `Ok(())`. -/
def verify_packet_acknowledgement (_client_state : GrandpaClientState)
    (_height : Height) (_proof : CommitmentProofBytes) (_port_id : PortId)
    (_channel_id : ChannelId) (_seq : Sequence) (_data : List Nat) : Except Error Unit :=
  Except.ok ()

/-- `GrandpaClient::verify_next_sequence_recv`
(`modules/src/ics10_grandpa/client_def.rs:124-134`): returns `Ok(())`. -/
def verify_next_sequence_recv (_client_state : GrandpaClientState)
    (_height : Height) (_proof : CommitmentProofBytes) (_port_id : PortId)
    (_channel_id : ChannelId) (_seq : Sequence) : Except Error Unit :=
  Except.ok ()

/-- `GrandpaClient::verify_packet_receipt_absence`
(`modules/src/ics10_grandpa/client_def.rs:136-146`): returns `Ok(())`. -/
def verify_packet_receipt_absence (_client_state : GrandpaClientState)
    (_height : Height) (_proof : CommitmentProofBytes) (_port_id : PortId)
    (_channel_id : ChannelId) (_seq : Sequence) : Except Error Unit :=
  Except.ok ()

/-- `GrandpaClient::verify_upgrade_and_update_state`
(`modules/src/ics10_grandpa/client_def.rs:148-160`): clones and returns the
input pair, ignoring both proofs. -/
def verify_upgrade_and_update_state (client_state : GrandpaClientState)
    (consensus_state : GrandpaConsensusState)
    (_proof_upgrade_client : MerkleProof)
    (_proof_upgrade_consensus_state : MerkleProof) :
    Except Error (GrandpaClientState × GrandpaConsensusState) :=
  Except.ok (client_state, consensus_state)

end GrandpaClient

/-! ## Event model — `crates/ibc/src/core/ics02_client/events.rs` -/

/-- `tendermint::abci::EventAttribute` (external crate), reduced to the fields
the source writes: a key and a value, both strings. -/
structure EventAttribute where
  key : String
  value : String
deriving DecidableEq, Repr

/-- `tendermint::abci::Event` (external crate): a kind and its attributes. -/
structure AbciEvent where
  kind : String
  attributes : List EventAttribute
deriving DecidableEq, Repr

/-- `CLIENT_ID_ATTRIBUTE_KEY` (`events.rs:16`). -/
def CLIENT_ID_ATTRIBUTE_KEY : String := "client_id"

/-- `CLIENT_TYPE_ATTRIBUTE_KEY` (`events.rs:19`). -/
def CLIENT_TYPE_ATTRIBUTE_KEY : String := "client_type"

/-- `CONSENSUS_HEIGHT_ATTRIBUTE_KEY` (`events.rs:22`). -/
def CONSENSUS_HEIGHT_ATTRIBUTE_KEY : String := "consensus_height"

/-- `CONSENSUS_HEIGHTS_ATTRIBUTE_KEY` (`events.rs:24`). -/
def CONSENSUS_HEIGHTS_ATTRIBUTE_KEY : String := "consensus_heights"

/-- `HEADER_ATTRIBUTE_KEY` (`events.rs:27`). -/
def HEADER_ATTRIBUTE_KEY : String := "header"

/-- Client type tag (`ClientType`), embedded by its canonical string form. -/
abbrev ClientType := String

/-- `ClientIdAttribute` (`events.rs:42-44`). -/
structure ClientIdAttribute where
  client_id : ClientId
deriving DecidableEq, Repr

/-- `impl From<ClientIdAttribute> for abci::EventAttribute` (`events.rs:46-50`). -/
def ClientIdAttribute.toEventAttribute (attr : ClientIdAttribute) : EventAttribute :=
  { key := CLIENT_ID_ATTRIBUTE_KEY, value := attr.client_id }

/-- `ClientTypeAttribute` (`events.rs:65-67`). -/
structure ClientTypeAttribute where
  client_type : ClientType
deriving DecidableEq, Repr

/-- `impl From<ClientTypeAttribute> for abci::EventAttribute` (`events.rs:69-73`). -/
def ClientTypeAttribute.toEventAttribute (attr : ClientTypeAttribute) : EventAttribute :=
  { key := CLIENT_TYPE_ATTRIBUTE_KEY, value := attr.client_type }

/-- `ConsensusHeightAttribute` (`events.rs:88-90`). -/
structure ConsensusHeightAttribute where
  consensus_height : Height
deriving DecidableEq, Repr

/-- `impl From<ConsensusHeightAttribute> for abci::EventAttribute` (`events.rs:92-96`);
the height becomes the attribute value through its `Display` form. -/
def ConsensusHeightAttribute.toEventAttribute (attr : ConsensusHeightAttribute) :
    EventAttribute :=
  { key := CONSENSUS_HEIGHT_ATTRIBUTE_KEY, value := attr.consensus_height.toDecimalString }

/-- `ConsensusHeightsAttribute` (`events.rs:111-113`). -/
structure ConsensusHeightsAttribute where
  consensus_heights : List Height
deriving DecidableEq, Repr

/-- `impl From<ConsensusHeightsAttribute> for abci::EventAttribute`
(`events.rs:115-124`): each height is rendered with `to_string` and the
results are joined with `","`. -/
def ConsensusHeightsAttribute.toEventAttribute (attr : ConsensusHeightsAttribute) :
    EventAttribute :=
  { key := CONSENSUS_HEIGHTS_ATTRIBUTE_KEY
    value := String.intercalate "," (attr.consensus_heights.map Height.toDecimalString) }

/-- `ibc_proto::google::protobuf::Any` (external crate): a type URL and opaque
value bytes. The Rust `String` type URL is embedded as its UTF-8 bytes. -/
structure ProtoAny where
  type_url : List Nat
  value : List Nat
deriving DecidableEq, Repr

/-- `HeaderAttribute` (`events.rs:127-129`). -/
structure HeaderAttribute where
  header : ProtoAny
deriving DecidableEq, Repr

/-- Lowercase hex digit for a nibble, as produced by `subtle_encoding::hex::encode`. -/
def hexDigit (n : Nat) : Char :=
  if n < 10 then Char.ofNat (48 + n) else Char.ofNat (87 + n)

/-- `subtle_encoding::hex::encode` (external crate): two lowercase hex digits per
byte; the `% 256` makes the `u8` range of each byte explicit. -/
def hexEncode (bs : List Nat) : String :=
  String.mk (bs.flatMap fun b => [hexDigit (b % 256 / 16), hexDigit (b % 16)])

/-- Value of one lowercase hex digit (`0-9a-f`), or `none`. -/
def hexDigitVal (c : Char) : Option Nat :=
  let n := c.toNat
  if 48 ≤ n ∧ n ≤ 57 then some (n - 48)
  else if 97 ≤ n ∧ n ≤ 102 then some (n - 87)
  else none

/-- Hex decoding on characters: pairs of digits to bytes; odd length or a
non-hex character fails. -/
def hexDecodeChars : List Char → Option (List Nat)
  | [] => some []
  | c1 :: c2 :: rest =>
    match hexDigitVal c1 with
    | none => none
    | some hi =>
      match hexDigitVal c2 with
      | none => none
      | some lo =>
        match hexDecodeChars rest with
        | none => none
        | some tl => some ((16 * hi + lo) :: tl)
  | [_] => none

/-- `subtle_encoding::hex::decode` (external crate): inverse of `hexEncode`. -/
def hexDecode (s : String) : Option (List Nat) :=
  hexDecodeChars s.data

/-- `impl From<HeaderAttribute> for abci::EventAttribute` (`events.rs:221-229`):
the value is the hex text of `header.value`; `header.type_url` is discarded. -/
def HeaderAttribute.toEventAttribute (attr : HeaderAttribute) : EventAttribute :=
  { key := HEADER_ATTRIBUTE_KEY, value := hexEncode attr.header.value }

/-- `sealed::InnerAny` (`events.rs:146-149`): the canonical-binary view of a
header payload; the Rust `String` type URL is embedded as its UTF-8 bytes. -/
structure InnerAny where
  type_url : List Nat
  value : List Nat
deriving DecidableEq, Repr

/-- Little-endian `u32` bytes of a length, as borsh writes length prefixes;
the `% 256` per byte makes the `u32` truncation explicit. -/
def u32le (n : Nat) : List Nat :=
  [n % 256, n / 256 % 256, n / 65536 % 256, n / 16777216 % 256]

/-- Read a little-endian `u32` from the front of a byte string; each byte must
be in `u8` range (the Rust input type is `&[u8]`). -/
def readU32 : List Nat → Option (Nat × List Nat)
  | b0 :: b1 :: b2 :: b3 :: rest =>
    if b0 < 256 ∧ b1 < 256 ∧ b2 < 256 ∧ b3 < 256 then
      some (b0 + 256 * b1 + 65536 * b2 + 16777216 * b3, rest)
    else none
  | _ => none

/-- Read exactly `n` bytes from the front of a byte string. -/
def readBytes (n : Nat) (l : List Nat) : Option (List Nat × List Nat) :=
  if n ≤ l.length then some (l.take n, l.drop n) else none

/-- Borsh serialization of `InnerAny` (derived `BorshSerialize`, `events.rs:146-149`):
`u32` little-endian length then bytes, for the type URL and then the value. -/
def InnerAny.borshEncode (a : InnerAny) : List Nat :=
  u32le a.type_url.length ++ a.type_url ++ u32le a.value.length ++ a.value

/-- Borsh deserialization of `InnerAny` (derived `BorshDeserialize`): reads the
two length-prefixed fields and returns the remaining input. -/
def InnerAny.borshDecode (b : List Nat) : Option (InnerAny × List Nat) :=
  match readU32 b with
  | none => none
  | some (ulen, r1) =>
    match readBytes ulen r1 with
    | none => none
    | some (url, r2) =>
      match readU32 r2 with
      | none => none
      | some (vlen, r3) =>
        match readBytes vlen r3 with
        | none => none
        | some (val, r4) => some ({ type_url := url, value := val }, r4)

/-- `impl BorshSerialize for HeaderAttribute` (`events.rs:152-164`): copies the
`Any` fields into an `InnerAny` and serializes that. -/
def HeaderAttribute.borshSerializeBytes (a : HeaderAttribute) : List Nat :=
  InnerAny.borshEncode { type_url := a.header.type_url, value := a.header.value }

/-- `impl BorshDeserialize for HeaderAttribute` (`events.rs:167-178`): decodes an
`InnerAny` and rebuilds the `Any`. -/
def HeaderAttribute.borshDeserializeBytes (b : List Nat) :
    Option (HeaderAttribute × List Nat) :=
  match InnerAny.borshDecode b with
  | some (ia, rest) =>
    some ({ header := { type_url := ia.type_url, value := ia.value } }, rest)
  | none => none

/-- Modelled from the spec: `IbcEventType::CreateClient.as_str()` is
`"create_client"` (spec §6 event kinds; `crates/ibc/src/events.rs` is outside
the provided sources). -/
def IbcEventType.createClientStr : String := "create_client"

/-- Modelled from the spec: `IbcEventType::UpdateClient.as_str()` is
`"update_client"`. -/
def IbcEventType.updateClientStr : String := "update_client"

/-- Modelled from the spec: `IbcEventType::ClientMisbehaviour.as_str()` is
`"client_misbehaviour"`. -/
def IbcEventType.clientMisbehaviourStr : String := "client_misbehaviour"

/-- Modelled from the spec: `IbcEventType::UpgradeClient.as_str()` is
`"upgrade_client"`. -/
def IbcEventType.upgradeClientStr : String := "upgrade_client"

/-- `CreateClient` event (`events.rs:245-249`). -/
structure CreateClient where
  client_id : ClientIdAttribute
  client_type : ClientTypeAttribute
  consensus_height : ConsensusHeightAttribute
deriving DecidableEq, Repr

/-- `CreateClient::new` (`events.rs:252-258`). -/
def CreateClient.new (client_id : ClientId) (client_type : ClientType)
    (consensus_height : Height) : CreateClient :=
  { client_id := { client_id := client_id }
    client_type := { client_type := client_type }
    consensus_height := { consensus_height := consensus_height } }

/-- `impl From<CreateClient> for abci::Event` (`events.rs:273-284`). -/
def CreateClient.toAbciEvent (c : CreateClient) : AbciEvent :=
  { kind := IbcEventType.createClientStr
    attributes := [c.client_id.toEventAttribute, c.client_type.toEventAttribute,
      c.consensus_height.toEventAttribute] }

/-- `UpdateClient` event (`events.rs:300-308`); `consensus_height` is deprecated
but still a field. -/
structure UpdateClient where
  client_id : ClientIdAttribute
  client_type : ClientTypeAttribute
  consensus_height : ConsensusHeightAttribute
  consensus_heights : ConsensusHeightsAttribute
  header : HeaderAttribute
deriving DecidableEq, Repr

/-- `UpdateClient::new` (`events.rs:311-325`). -/
def UpdateClient.new (client_id : ClientId) (client_type : ClientType)
    (consensus_height : Height) (consensus_heights : List Height)
    (header : ProtoAny) : UpdateClient :=
  { client_id := { client_id := client_id }
    client_type := { client_type := client_type }
    consensus_height := { consensus_height := consensus_height }
    consensus_heights := { consensus_heights := consensus_heights }
    header := { header := header } }

/-- `impl From<UpdateClient> for abci::Event` (`events.rs:348-361`). -/
def UpdateClient.toAbciEvent (u : UpdateClient) : AbciEvent :=
  { kind := IbcEventType.updateClientStr
    attributes := [u.client_id.toEventAttribute, u.client_type.toEventAttribute,
      u.consensus_height.toEventAttribute, u.consensus_heights.toEventAttribute,
      u.header.toEventAttribute] }

/-- `ClientMisbehaviour` event (`events.rs:378-381`). -/
structure ClientMisbehaviour where
  client_id : ClientIdAttribute
  client_type : ClientTypeAttribute
deriving DecidableEq, Repr

/-- `impl From<ClientMisbehaviour> for abci::Event` (`events.rs:400-407`). -/
def ClientMisbehaviour.toAbciEvent (c : ClientMisbehaviour) : AbciEvent :=
  { kind := IbcEventType.clientMisbehaviourStr
    attributes := [c.client_id.toEventAttribute, c.client_type.toEventAttribute] }

/-- `UpgradeClient` event (`events.rs:423-427`). -/
structure UpgradeClient where
  client_id : ClientIdAttribute
  client_type : ClientTypeAttribute
  consensus_height : ConsensusHeightAttribute
deriving DecidableEq, Repr

/-- `impl From<UpgradeClient> for abci::Event` (`events.rs:451-462`). -/
def UpgradeClient.toAbciEvent (u : UpgradeClient) : AbciEvent :=
  { kind := IbcEventType.upgradeClientStr
    attributes := [u.client_id.toEventAttribute, u.client_type.toEventAttribute,
      u.consensus_height.toEventAttribute] }

/-! ## CLI — `relayer-cli/src/commands/query/connections.rs` -/

/-- Chain identifier, by its canonical string form. -/
abbrev ChainId := String

/-- The slice of a configured chain entry the command inspects: `account_prefix`
is the backend tag matched by the dispatch (`connections.rs:37-38`). -/
structure ChainConfig where
  account_pfx : String
deriving DecidableEq, Repr

/-- `IdentifiedConnection` (from `ibc_proto`): the command only projects its
`connection_id`. -/
structure IdentifiedConnection where
  connection_id : ConnectionId
deriving DecidableEq, Repr

/-- Modelled from the spec: how a CLI run terminates. `Output::error(..).exit()`
and `exit_with_unrecoverable_error` (in `relayer-cli/src/conclude.rs`, outside
the provided sources) print a formatted error and exit with a non-zero code;
`Output::success(..).exit()` prints the payload and exits zero; `panic!` aborts
the process fatally. -/
inductive CliOutcome where
  | errorExit (msg : String)
  | successExit (ids : List ConnectionId)
  | panicked (msg : String)
deriving DecidableEq, Repr

/-- External collaborators of `QueryConnectionsCmd::run`, passed as explicit
inputs: the result of bootstrapping each backend and the result of the
`query_connections` RPC on the bootstrapped chain. -/
structure QueryEnv where
  bootstrap_cosmos : Except String Unit
  bootstrap_substrate : Except String Unit
  query_connections : Except String (List IdentifiedConnection)
deriving Repr

/-- `impl Runnable for QueryConnectionsCmd::run` (`connections.rs:21-84`):
an unknown chain id is a formatted error exit; the backend tag
(`account_prefix`) dispatches over the closed set `"cosmos"` / `"substrate"`,
each printing the connection ids on query success or a formatted error on
query failure; any other tag is `panic!("Unknown chain type")`. Cosmos
bootstrap failure exits via `exit_with_unrecoverable_error`; substrate
bootstrap failure is `.unwrap()`, a panic. -/
def QueryConnectionsCmd.run (chain_id : ChainId) (find_chain : Option ChainConfig)
    (env : QueryEnv) : CliOutcome :=
  match find_chain with
  | none =>
    CliOutcome.errorExit
      ("chain \x27" ++ chain_id ++ "\x27 not found in configuration file")
  | some chain_config =>
    if chain_config.account_pfx = "cosmos" then
      match env.bootstrap_cosmos with
      | Except.error e => CliOutcome.errorExit e
      | Except.ok _ =>
        match env.query_connections with
        | Except.ok connections =>
          CliOutcome.successExit (connections.map IdentifiedConnection.connection_id)
        | Except.error e => CliOutcome.errorExit e
    else if chain_config.account_pfx = "substrate" then
      match env.bootstrap_substrate with
      | Except.error e => CliOutcome.panicked e
      | Except.ok _ =>
        match env.query_connections with
        | Except.ok connections =>
          CliOutcome.successExit (connections.map IdentifiedConnection.connection_id)
        | Except.error e => CliOutcome.errorExit e
    else CliOutcome.panicked "Unknown chain type"

/-! ## Decoders for the tagged attribute forms

The source only writes the tagged key/value forms (`From<...> for
EventAttribute`); the decoders below are modelled from the spec (§4.3: decoding
any encoding and re-encoding yields the original semantic value), as the
natural inverses of the tagged forms: read the value string back through the
same textual format the encoder used. -/

/-- The decimal digits of `n`, most significant first; this is the reference
form of `Nat.repr` used to reason about the decimal height strings. -/
def decDigits (n : Nat) : List Char :=
  if _h : n < 10 then [Nat.digitChar n]
  else decDigits (n / 10) ++ [Nat.digitChar (n % 10)]
termination_by n
decreasing_by
  omega

/-- Value of one decimal digit character, or `none`. -/
def decDigitVal (c : Char) : Option Nat :=
  if 48 ≤ c.toNat ∧ c.toNat ≤ 57 then some (c.toNat - 48) else none

/-- Fold decimal digits onto an accumulator; fails on a non-digit. -/
def parseDecAux (a : Nat) : List Char → Option Nat
  | [] => some a
  | c :: cs =>
    match decDigitVal c with
    | none => none
    | some d => parseDecAux (10 * a + d) cs

/-- Parse a non-empty all-digit character list as a decimal number. -/
def parseDec : List Char → Option Nat
  | [] => none
  | c :: cs => parseDecAux 0 (c :: cs)

/-- Split at the first `-`, returning the parts before and after it. -/
def splitAtDash : List Char → Option (List Char × List Char)
  | [] => none
  | c :: cs =>
    if c = '-' then some ([], cs)
    else
      match splitAtDash cs with
      | none => none
      | some (l, r) => some (c :: l, r)

/-- Modelled from the spec: parse the decimal height form
`"revision-height"` back into a `Height`. -/
def parseHeightChars (l : List Char) : Option Height :=
  match splitAtDash l with
  | none => none
  | some (a, b) =>
    match parseDec a, parseDec b with
    | some x, some y => some { revision_number := x, revision_height := y }
    | _, _ => none

/-- Modelled from the spec: string-level height parser. -/
def parseHeight (s : String) : Option Height :=
  parseHeightChars s.data

/-- Split a character list at every `,`. -/
def splitComma : List Char → List (List Char)
  | [] => [[]]
  | c :: cs =>
    if c = ',' then [] :: splitComma cs
    else
      match splitComma cs with
      | [] => [[c]]
      | l :: ls => (c :: l) :: ls

/-- Parse every component as a height. -/
def parseHeightList : List (List Char) → Option (List Height)
  | [] => some []
  | l :: ls =>
    match parseHeightChars l, parseHeightList ls with
    | some h, some hs => some (h :: hs)
    | _, _ => none

/-- Modelled from the spec: parse a comma-joined decimal height list; the
empty string is the empty list. -/
def parseHeights (s : String) : Option (List Height) :=
  if s.data = [] then some []
  else parseHeightList (splitComma s.data)

/-- Modelled from the spec: tagged decoder for the client id attribute. -/
def ClientIdAttribute.tagDecode (e : EventAttribute) : Option ClientIdAttribute :=
  if e.key = CLIENT_ID_ATTRIBUTE_KEY then some { client_id := e.value } else none

/-- Modelled from the spec: tagged decoder for the client type attribute. -/
def ClientTypeAttribute.tagDecode (e : EventAttribute) : Option ClientTypeAttribute :=
  if e.key = CLIENT_TYPE_ATTRIBUTE_KEY then some { client_type := e.value } else none

/-- Modelled from the spec: tagged decoder for the consensus height attribute. -/
def ConsensusHeightAttribute.tagDecode (e : EventAttribute) :
    Option ConsensusHeightAttribute :=
  if e.key = CONSENSUS_HEIGHT_ATTRIBUTE_KEY then
    (parseHeight e.value).map fun h => { consensus_height := h }
  else none

/-- Modelled from the spec: tagged decoder for the consensus heights attribute. -/
def ConsensusHeightsAttribute.tagDecode (e : EventAttribute) :
    Option ConsensusHeightsAttribute :=
  if e.key = CONSENSUS_HEIGHTS_ATTRIBUTE_KEY then
    (parseHeights e.value).map fun hs => { consensus_heights := hs }
  else none

/-! ## Canonical binary (borsh) codecs for the remaining attribute types

The attribute structs in `events.rs` derive `BorshSerialize`/`BorshDeserialize`
(`events.rs:37-40` and the matching attributes on each struct). Borsh writes
struct fields in order; a Rust `String` as a `u32` little-endian byte length
followed by its UTF-8 bytes; a `u64` as 8 little-endian bytes; a `Vec` as a
`u32` little-endian count followed by its elements. The codecs below spell
that wire format out over `List Nat` bytes. -/

/-- UTF-8 bytes of one Unicode scalar value. -/
def utf8EncodeScalar (n : Nat) : List Nat :=
  if n < 128 then [n]
  else if n < 2048 then [192 + n / 64, 128 + n % 64]
  else if n < 65536 then [224 + n / 4096, 128 + n / 64 % 64, 128 + n % 64]
  else [240 + n / 262144, 128 + n / 4096 % 64, 128 + n / 64 % 64, 128 + n % 64]

/-- The UTF-8 bytes of a string (what Rust stores in a `String`). -/
def strBytes (s : String) : List Nat :=
  s.data.flatMap fun c => utf8EncodeScalar c.toNat

/-- Decode one UTF-8 character from the front of a byte string, rejecting
continuation-byte starts, overlong forms, surrogates and out-of-range values. -/
def utf8DecodeChar : List Nat → Option (Char × List Nat)
  | [] => none
  | b0 :: t =>
    if b0 < 128 then some (Char.ofNat b0, t)
    else if b0 < 192 then none
    else if b0 < 224 then
      match t with
      | b1 :: r =>
        if 128 ≤ b1 ∧ b1 < 192 then
          if 128 ≤ (b0 - 192) * 64 + (b1 - 128) then
            some (Char.ofNat ((b0 - 192) * 64 + (b1 - 128)), r)
          else none
        else none
      | [] => none
    else if b0 < 240 then
      match t with
      | b1 :: b2 :: r =>
        if (128 ≤ b1 ∧ b1 < 192) ∧ (128 ≤ b2 ∧ b2 < 192) then
          if 2048 ≤ (b0 - 224) * 4096 + (b1 - 128) * 64 + (b2 - 128) ∧
              ((b0 - 224) * 4096 + (b1 - 128) * 64 + (b2 - 128) < 55296 ∨
               57343 < (b0 - 224) * 4096 + (b1 - 128) * 64 + (b2 - 128)) then
            some (Char.ofNat ((b0 - 224) * 4096 + (b1 - 128) * 64 + (b2 - 128)), r)
          else none
        else none
      | _ => none
    else if b0 < 248 then
      match t with
      | b1 :: b2 :: b3 :: r =>
        if (128 ≤ b1 ∧ b1 < 192) ∧ (128 ≤ b2 ∧ b2 < 192) ∧ (128 ≤ b3 ∧ b3 < 192) then
          if 65536 ≤ (b0 - 240) * 262144 + (b1 - 128) * 4096 + (b2 - 128) * 64 + (b3 - 128) ∧
              (b0 - 240) * 262144 + (b1 - 128) * 4096 + (b2 - 128) * 64 + (b3 - 128) < 1114112 then
            some (Char.ofNat
              ((b0 - 240) * 262144 + (b1 - 128) * 4096 + (b2 - 128) * 64 + (b3 - 128)), r)
          else none
        else none
      | _ => none
    else none

/-- Decode a whole byte string to characters, fuelled by its length (every
character consumes at least one byte). -/
def utf8DecodeAllAux : Nat → List Nat → Option (List Char)
  | _, [] => some []
  | 0, _ :: _ => none
  | fuel + 1, b :: t =>
    match utf8DecodeChar (b :: t) with
    | none => none
    | some (c, r) =>
      match utf8DecodeAllAux fuel r with
      | none => none
      | some cs => some (c :: cs)

/-- Borsh encoding of a Rust `String`: `u32` little-endian byte length, then
the UTF-8 bytes. -/
def borshEncodeString (s : String) : List Nat :=
  u32le (strBytes s).length ++ strBytes s

/-- Borsh decoding of a Rust `String`. -/
def borshDecodeString (l : List Nat) : Option (String × List Nat) :=
  match readU32 l with
  | none => none
  | some (len, r1) =>
    match readBytes len r1 with
    | none => none
    | some (bs, r2) =>
      match utf8DecodeAllAux bs.length bs with
      | none => none
      | some cs => some (String.mk cs, r2)

/-- Little-endian `u64` bytes; the `% 256` per byte makes the `u64`
truncation explicit. -/
def u64le (n : Nat) : List Nat :=
  [n % 256, n / 256 % 256, n / 65536 % 256, n / 16777216 % 256,
   n / 4294967296 % 256, n / 1099511627776 % 256, n / 281474976710656 % 256,
   n / 72057594037927936 % 256]

/-- Read a little-endian `u64` from the front of a byte string. -/
def readU64 : List Nat → Option (Nat × List Nat)
  | b0 :: b1 :: b2 :: b3 :: b4 :: b5 :: b6 :: b7 :: rest =>
    if b0 < 256 ∧ b1 < 256 ∧ b2 < 256 ∧ b3 < 256 ∧
        b4 < 256 ∧ b5 < 256 ∧ b6 < 256 ∧ b7 < 256 then
      some (b0 + 256 * b1 + 65536 * b2 + 16777216 * b3 + 4294967296 * b4 +
        1099511627776 * b5 + 281474976710656 * b6 + 72057594037927936 * b7, rest)
    else none
  | _ => none

/-- Borsh encoding of a `Height` (derived; two `u64` fields in order). -/
def Height.borshEncode (h : Height) : List Nat :=
  u64le h.revision_number ++ u64le h.revision_height

/-- Borsh decoding of a `Height`. -/
def borshDecodeHeight (l : List Nat) : Option (Height × List Nat) :=
  match readU64 l with
  | none => none
  | some (a, r1) =>
    match readU64 r1 with
    | none => none
    | some (b, r2) => some ({ revision_number := a, revision_height := b }, r2)

/-- Borsh encoding of a `Vec<Height>`: `u32` little-endian count, then the
elements. -/
def borshEncodeHeights (hs : List Height) : List Nat :=
  u32le hs.length ++ hs.flatMap Height.borshEncode

/-- Decode exactly `k` heights from the front of a byte string. -/
def borshDecodeHeightsAux : Nat → List Nat → Option (List Height × List Nat)
  | 0, l => some ([], l)
  | k + 1, l =>
    match borshDecodeHeight l with
    | none => none
    | some (h, r) =>
      match borshDecodeHeightsAux k r with
      | none => none
      | some (hs, r2) => some (h :: hs, r2)

/-- Borsh decoding of a `Vec<Height>`. -/
def borshDecodeHeights (l : List Nat) : Option (List Height × List Nat) :=
  match readU32 l with
  | none => none
  | some (k, r) => borshDecodeHeightsAux k r

/-- Derived `BorshSerialize` for `ClientIdAttribute` (`events.rs:37-44`): its
one `String`-backed field. -/
def ClientIdAttribute.borshSerializeBytes (a : ClientIdAttribute) : List Nat :=
  borshEncodeString a.client_id

/-- Derived `BorshDeserialize` for `ClientIdAttribute`. -/
def ClientIdAttribute.borshDeserializeBytes (l : List Nat) :
    Option (ClientIdAttribute × List Nat) :=
  match borshDecodeString l with
  | none => none
  | some (s, r) => some ({ client_id := s }, r)

/-- Derived `BorshSerialize` for `ClientTypeAttribute` (`events.rs:60-67`). -/
def ClientTypeAttribute.borshSerializeBytes (a : ClientTypeAttribute) : List Nat :=
  borshEncodeString a.client_type

/-- Derived `BorshDeserialize` for `ClientTypeAttribute`. -/
def ClientTypeAttribute.borshDeserializeBytes (l : List Nat) :
    Option (ClientTypeAttribute × List Nat) :=
  match borshDecodeString l with
  | none => none
  | some (s, r) => some ({ client_type := s }, r)

/-- Derived `BorshSerialize` for `ConsensusHeightAttribute`
(`events.rs:83-90`): its one `Height` field. -/
def ConsensusHeightAttribute.borshSerializeBytes (a : ConsensusHeightAttribute) :
    List Nat :=
  a.consensus_height.borshEncode

/-- Derived `BorshDeserialize` for `ConsensusHeightAttribute`. -/
def ConsensusHeightAttribute.borshDeserializeBytes (l : List Nat) :
    Option (ConsensusHeightAttribute × List Nat) :=
  match borshDecodeHeight l with
  | none => none
  | some (h, r) => some ({ consensus_height := h }, r)

/-- Derived `BorshSerialize` for `ConsensusHeightsAttribute`
(`events.rs:106-113`): its one `Vec<Height>` field. -/
def ConsensusHeightsAttribute.borshSerializeBytes (a : ConsensusHeightsAttribute) :
    List Nat :=
  borshEncodeHeights a.consensus_heights

/-- Derived `BorshDeserialize` for `ConsensusHeightsAttribute`. -/
def ConsensusHeightsAttribute.borshDeserializeBytes (l : List Nat) :
    Option (ConsensusHeightsAttribute × List Nat) :=
  match borshDecodeHeights l with
  | none => none
  | some (hs, r) => some ({ consensus_heights := hs }, r)

/-! ## Supporting lemmas -/

/-- Reading back a little-endian `u32` recovers a length below `2^32`. -/
theorem readU32_u32le (n : Nat) (rest : List Nat) (h : n < 4294967296) :
    readU32 (u32le n ++ rest) = some (n, rest) := by
  simp only [u32le, List.cons_append, List.nil_append, readU32]
  rw [if_pos (by refine ⟨by omega, by omega, by omega, by omega⟩)]
  have hval : n % 256 + 256 * (n / 256 % 256) + 65536 * (n / 65536 % 256) +
      16777216 * (n / 16777216 % 256) = n := by omega
  rw [hval]

/-- A successful `readU32` came from the little-endian bytes of its result. -/
theorem readU32_inv (b : List Nat) (n : Nat) (rest : List Nat)
    (h : readU32 b = some (n, rest)) : u32le n ++ rest = b := by
  unfold readU32 at h
  split at h
  · rename_i b0 b1 b2 b3 r
    split at h
    · rename_i hc
      simp only [Option.some.injEq, Prod.mk.injEq] at h
      obtain ⟨hn, hr⟩ := h
      subst hn
      subst hr
      simp only [u32le, List.cons_append, List.nil_append, List.cons.injEq, and_true]
      omega
    · exact absurd h (by simp)
  · exact absurd h (by simp)

/-- Reading back exactly the bytes that were placed in front. -/
theorem readBytes_append (l rest : List Nat) :
    readBytes l.length (l ++ rest) = some (l, rest) := by
  unfold readBytes
  rw [if_pos (by simp)]
  rw [List.take_left, List.drop_left]

/-- A successful `readBytes` splits its input and returns as many bytes as asked. -/
theorem readBytes_inv (k : Nat) (l xs rest : List Nat)
    (h : readBytes k l = some (xs, rest)) : xs ++ rest = l ∧ xs.length = k := by
  unfold readBytes at h
  split at h
  · rename_i hk
    simp only [Option.some.injEq, Prod.mk.injEq] at h
    obtain ⟨hx, hr⟩ := h
    subst hx
    subst hr
    exact ⟨List.take_append_drop k l, by simp [List.length_take]; omega⟩
  · exact absurd h (by simp)

/-- Borsh decoding inverts borsh encoding of an `InnerAny` whose field lengths
fit in a `u32`. -/
theorem innerAny_borshDecode_borshEncode (a : InnerAny)
    (hu : a.type_url.length < 4294967296) (hv : a.value.length < 4294967296) :
    InnerAny.borshDecode (InnerAny.borshEncode a) = some (a, []) := by
  unfold InnerAny.borshEncode InnerAny.borshDecode
  rw [List.append_assoc, List.append_assoc]
  rw [readU32_u32le _ _ hu]
  simp only []
  rw [readBytes_append]
  simp only []
  rw [readU32_u32le _ _ hv]
  simp only []
  have hlast : readBytes a.value.length a.value = some (a.value, []) := by
    have := readBytes_append a.value []
    rwa [List.append_nil] at this
  rw [hlast]

/-- Borsh encoding rebuilds exactly a fully consumed well-formed byte string. -/
theorem innerAny_borshEncode_borshDecode (b : List Nat) (a : InnerAny)
    (h : InnerAny.borshDecode b = some (a, [])) : InnerAny.borshEncode a = b := by
  unfold InnerAny.borshDecode at h
  split at h
  · exact absurd h (by simp)
  · rename_i ulen r1 hu
    split at h
    · exact absurd h (by simp)
    · rename_i url r2 hurl
      split at h
      · exact absurd h (by simp)
      · rename_i vlen r3 hv
        split at h
        · exact absurd h (by simp)
        · rename_i val r4 hval
          simp only [Option.some.injEq, Prod.mk.injEq] at h
          obtain ⟨ha, hr4⟩ := h
          subst hr4
          subst ha
          have e1 := readU32_inv _ _ _ hu
          obtain ⟨e2, l1⟩ := readBytes_inv _ _ _ _ hurl
          have e3 := readU32_inv _ _ _ hv
          obtain ⟨e4, l2⟩ := readBytes_inv _ _ _ _ hval
          show u32le url.length ++ url ++ u32le val.length ++ val = b
          rw [l1, l2]
          rw [List.append_assoc, List.append_assoc]
          rw [← e1]
          congr 1
          rw [← e2]
          congr 1
          rw [← e3]
          congr 1
          rw [← e4, List.append_nil]

/-- Each hex digit decodes back to its nibble. -/
theorem hexDigitVal_hexDigit : ∀ n < 16, hexDigitVal (hexDigit n) = some n := by
  decide

/-- Character-level hex decoding inverts hex encoding of `u8` bytes. -/
theorem hexDecodeChars_hexEncode (bs : List Nat) (h : ∀ x ∈ bs, x < 256) :
    hexDecodeChars (bs.flatMap fun b => [hexDigit (b % 256 / 16), hexDigit (b % 16)]) =
      some bs := by
  induction bs with
  | nil => rfl
  | cons b tl ih =>
    have hb : b < 256 := h b (by simp)
    simp only [List.flatMap_cons, List.cons_append, List.nil_append]
    rw [hexDecodeChars]
    rw [hexDigitVal_hexDigit _ (by omega)]
    rw [hexDigitVal_hexDigit _ (by omega)]
    rw [ih (fun x hx => h x (by simp [hx]))]
    have hb16 : 16 * (b % 256 / 16) + b % 16 = b := by omega
    show some ((16 * (b % 256 / 16) + b % 16) :: tl) = some (b :: tl)
    rw [hb16]

/-- The ten decimal digit characters have the expected code points. -/
theorem digitChar_toNat : ∀ d < 10, (Nat.digitChar d).toNat = 48 + d := by
  decide

/-- Decimal digits decode back to their values. -/
theorem decDigitVal_digitChar : ∀ d < 10, decDigitVal (Nat.digitChar d) = some d := by
  decide

/-- `Nat.toDigitsCore` with enough fuel produces exactly the reference digits. -/
theorem toDigitsCore_eq_decDigits (fuel : Nat) :
    ∀ n acc, n < fuel → Nat.toDigitsCore 10 fuel n acc = decDigits n ++ acc := by
  induction fuel with
  | zero => intro n acc h; omega
  | succ f ih =>
    intro n acc h
    simp only [Nat.toDigitsCore]
    by_cases h10 : n / 10 = 0
    · rw [if_pos h10]
      unfold decDigits
      rw [dif_pos (by omega)]
      have hmod : n % 10 = n := Nat.mod_eq_of_lt (by omega)
      rw [hmod]
      rfl
    · rw [if_neg h10]
      rw [ih (n / 10) _ (by omega)]
      conv_rhs => unfold decDigits
      rw [dif_neg (by omega)]
      simp [List.append_assoc]

/-- `Nat.repr` agrees with the reference digits. -/
theorem repr_eq_decDigits (n : Nat) : Nat.repr n = String.mk (decDigits n) := by
  unfold Nat.repr Nat.toDigits
  rw [toDigitsCore_eq_decDigits (n + 1) n [] (by omega)]
  simp [List.asString]

/-- The reference digit list is never empty. -/
theorem decDigits_ne_nil (n : Nat) : decDigits n ≠ [] := by
  unfold decDigits
  by_cases h : n < 10
  · rw [dif_pos h]
    simp
  · rw [dif_neg h]
    simp

/-- Every character of the reference digit list is a decimal digit. -/
theorem decDigits_mem_digit (n : Nat) :
    ∀ c ∈ decDigits n, 48 ≤ c.toNat ∧ c.toNat ≤ 57 := by
  induction n using Nat.strong_induction_on with
  | _ n ih =>
    unfold decDigits
    by_cases h : n < 10
    · rw [dif_pos h]
      intro c hc
      simp only [List.mem_singleton] at hc
      subst hc
      rw [digitChar_toNat n h]
      omega
    · rw [dif_neg h]
      intro c hc
      rcases List.mem_append.mp hc with hc1 | hc2
      · exact ih (n / 10) (by omega) c hc1
      · simp only [List.mem_singleton] at hc2
        subst hc2
        rw [digitChar_toNat (n % 10) (by omega)]
        omega

/-- Digit folding distributes over list append. -/
theorem parseDecAux_append (l1 l2 : List Char) :
    ∀ a, parseDecAux a (l1 ++ l2) =
      match parseDecAux a l1 with
      | none => none
      | some b => parseDecAux b l2 := by
  induction l1 with
  | nil => intro a; rfl
  | cons c cs ih =>
    intro a
    simp only [List.cons_append, parseDecAux]
    cases hd : decDigitVal c with
    | none => rfl
    | some d => exact ih (10 * a + d)

/-- Folding the reference digits of `n` onto `a` yields `a·10^len + n`. -/
theorem parseDecAux_decDigits (n : Nat) :
    ∀ a, parseDecAux a (decDigits n) =
      some (a * 10 ^ (decDigits n).length + n) := by
  induction n using Nat.strong_induction_on with
  | _ n ih =>
    intro a
    by_cases h : n < 10
    · rw [decDigits.eq_def n, dif_pos h]
      simp only [parseDecAux]
      rw [decDigitVal_digitChar n h]
      simp only [parseDecAux, List.length_singleton]
      congr 1
      omega
    · rw [decDigits.eq_def n, dif_neg h]
      rw [parseDecAux_append]
      rw [ih (n / 10) (by omega) a]
      simp only [parseDecAux]
      rw [decDigitVal_digitChar (n % 10) (by omega)]
      simp only [parseDecAux, List.length_append, List.length_singleton]
      congr 1
      have hpow : a * 10 ^ ((decDigits (n / 10)).length + 1) =
          a * 10 ^ (decDigits (n / 10)).length * 10 := by ring
      rw [hpow]
      generalize a * 10 ^ (decDigits (n / 10)).length = k
      omega

/-- Parsing the reference digits of `n` recovers `n`. -/
theorem parseDec_decDigits (n : Nat) : parseDec (decDigits n) = some n := by
  cases hd : decDigits n with
  | nil => exact absurd hd (decDigits_ne_nil n)
  | cons c cs =>
    show parseDecAux 0 (c :: cs) = some n
    rw [← hd, parseDecAux_decDigits n 0]
    simp

/-- Splitting at the dash after a dash-free head returns head and tail. -/
theorem splitAtDash_append (l rest : List Char) (hl : ∀ c ∈ l, c ≠ '-') :
    splitAtDash (l ++ '-' :: rest) = some (l, rest) := by
  induction l with
  | nil =>
    simp [splitAtDash]
  | cons c cs ih =>
    simp only [List.cons_append, splitAtDash, List.append_eq]
    rw [if_neg (hl c (by simp))]
    rw [ih fun x hx => hl x (by simp [hx])]

/-- The characters of a height's decimal form. -/
theorem toDecimalString_data (h : Height) :
    (Height.toDecimalString h).data =
      decDigits h.revision_number ++ '-' :: decDigits h.revision_height := by
  unfold Height.toDecimalString
  rw [String.data_append, String.data_append]
  rw [show toString h.revision_number = Nat.repr h.revision_number from rfl]
  rw [show toString h.revision_height = Nat.repr h.revision_height from rfl]
  rw [repr_eq_decDigits, repr_eq_decDigits]
  rw [List.append_assoc]
  rfl

/-- A decimal digit is neither a dash nor a comma. -/
theorem digit_ne_dash_comma (c : Char) (hc : 48 ≤ c.toNat ∧ c.toNat ≤ 57) :
    c ≠ '-' ∧ c ≠ ',' := by
  constructor
  · intro he
    subst he
    simp at hc
  · intro he
    subst he
    simp at hc

/-- Parsing a height's decimal form recovers the height. -/
theorem parseHeightChars_toDecimalString (h : Height) :
    parseHeightChars (Height.toDecimalString h).data = some h := by
  rw [toDecimalString_data]
  unfold parseHeightChars
  rw [splitAtDash_append _ _
    fun c hc => (digit_ne_dash_comma c (decDigits_mem_digit _ c hc)).1]
  simp only []
  rw [parseDec_decDigits, parseDec_decDigits]

/-- The characters that `String.intercalate.go` accumulates. -/
theorem intercalate_go_data (s : String) (as : List String) :
    ∀ acc, (String.intercalate.go acc s as).data =
      acc.data ++ as.flatMap fun a => s.data ++ a.data := by
  induction as with
  | nil =>
    intro acc
    simp [String.intercalate.go]
  | cons a tl ih =>
    intro acc
    rw [String.intercalate.go]
    rw [ih]
    simp [String.data_append]

/-- The characters of a comma-joined string list. -/
theorem intercalate_comma_data (a : String) (as : List String) :
    (String.intercalate "," (a :: as)).data =
      a.data ++ as.flatMap fun x => ',' :: x.data := by
  show (String.intercalate.go a "," as).data = _
  rw [intercalate_go_data]
  rfl

/-- A comma-free character list splits as one component. -/
theorem splitComma_single (l : List Char) (hl : ∀ c ∈ l, c ≠ ',') :
    splitComma l = [l] := by
  induction l with
  | nil => rfl
  | cons c cs ih =>
    simp only [splitComma]
    rw [if_neg (hl c (by simp))]
    rw [ih fun x hx => hl x (by simp [hx])]

/-- Splitting after a comma-free head peels off one component. -/
theorem splitComma_append (l rest : List Char) (hl : ∀ c ∈ l, c ≠ ',') :
    splitComma (l ++ ',' :: rest) = l :: splitComma rest := by
  induction l with
  | nil =>
    simp [splitComma]
  | cons c cs ih =>
    simp only [List.cons_append, splitComma, List.append_eq]
    rw [if_neg (hl c (by simp))]
    rw [ih fun x hx => hl x (by simp [hx])]

/-- Splitting a comma-joined list of comma-free components recovers them. -/
theorem splitComma_parts (ps : List (List Char)) :
    ∀ p, (∀ c ∈ p, c ≠ ',') → (∀ q ∈ ps, ∀ c ∈ q, c ≠ ',') →
      splitComma (p ++ ps.flatMap fun q => ',' :: q) = p :: ps := by
  induction ps with
  | nil =>
    intro p hp _
    simp only [List.flatMap_nil, List.append_nil]
    exact splitComma_single p hp
  | cons q qs ih =>
    intro p hp hps
    simp only [List.flatMap_cons]
    rw [show p ++ (',' :: q ++ qs.flatMap fun x => ',' :: x) =
      p ++ ',' :: (q ++ qs.flatMap fun x => ',' :: x) from by simp]
    rw [splitComma_append _ _ hp]
    rw [ih q (hps q (by simp)) fun x hx => hps x (by simp [hx])]

/-- Parsing the comma-joined decimal forms of a height list recovers it. -/
theorem parseHeights_intercalate (hs : List Height) :
    parseHeights (String.intercalate "," (hs.map Height.toDecimalString)) = some hs := by
  cases hs with
  | nil => rfl
  | cons h tl =>
    unfold parseHeights
    rw [List.map_cons, intercalate_comma_data]
    have hflat : (List.map Height.toDecimalString tl).flatMap
        (fun x => ',' :: x.data) = (tl.map fun x => (Height.toDecimalString x).data).flatMap
          fun q => ',' :: q := by
      rw [List.flatMap_map, List.flatMap_map]
    have hdashfree : ∀ x : Height, ∀ c ∈ (Height.toDecimalString x).data, c ≠ ',' := by
      intro x c hc
      rw [toDecimalString_data] at hc
      rcases List.mem_append.mp hc with h1 | h2
      · exact (digit_ne_dash_comma c (decDigits_mem_digit _ c h1)).2
      · rcases List.mem_cons.mp h2 with h3 | h4
        · subst h3
          intro he
          simp at he
        · exact (digit_ne_dash_comma c (decDigits_mem_digit _ c h4)).2
    rw [if_neg (by
      intro hempty
      have h1 : (Height.toDecimalString h).data = [] :=
        (List.append_eq_nil.mp hempty).1
      rw [toDecimalString_data] at h1
      exact absurd (List.append_eq_nil.mp h1).1 (decDigits_ne_nil _))]
    rw [hflat]
    rw [splitComma_parts _ _ (hdashfree h) (by
      intro q hq c hc
      rcases List.mem_map.mp hq with ⟨x, _, hx⟩
      subst hx
      exact hdashfree x c hc)]
    have hlist : ∀ l : List Height,
        parseHeightList (l.map fun x => (Height.toDecimalString x).data) = some l := by
      intro l
      induction l with
      | nil => rfl
      | cons x xs ihx =>
        simp only [List.map_cons, parseHeightList]
        rw [parseHeightChars_toDecimalString, ihx]
    show parseHeightList
      ((Height.toDecimalString h).data :: tl.map fun x => (Height.toDecimalString x).data) =
        some (h :: tl)
    simp only [parseHeightList]
    rw [parseHeightChars_toDecimalString, hlist tl]

/-- Every `Char` is a Unicode scalar value: below the surrogate range or
between it and `0x110000`. -/
theorem char_toNat_valid (c : Char) :
    c.toNat < 55296 ∨ (57343 < c.toNat ∧ c.toNat < 1114112) := c.valid

/-- `Char.ofNat` at a valid scalar value has that value. -/
theorem toNat_ofNat_valid (n : Nat) (h : Nat.isValidChar n) :
    (Char.ofNat n).toNat = n := by
  unfold Char.ofNat
  rw [dif_pos h]
  simp [Char.ofNatAux, Char.toNat, UInt32.toNat]

/-- UTF-8 encoding of a scalar always produces at least one byte. -/
theorem utf8EncodeScalar_ne_nil (n : Nat) : utf8EncodeScalar n ≠ [] := by
  unfold utf8EncodeScalar
  by_cases h1 : n < 128
  · rw [if_pos h1]
    simp
  · rw [if_neg h1]
    by_cases h2 : n < 2048
    · rw [if_pos h2]
      simp
    · rw [if_neg h2]
      by_cases h3 : n < 65536
      · rw [if_pos h3]
        simp
      · rw [if_neg h3]
        simp

/-- Decoding the UTF-8 bytes of a character recovers it and the rest. -/
theorem utf8DecodeChar_encode (c : Char) (rest : List Nat) :
    utf8DecodeChar (utf8EncodeScalar c.toNat ++ rest) = some (c, rest) := by
  have hv : c.toNat < 55296 ∨ (57343 < c.toNat ∧ c.toNat < 1114112) :=
    char_toNat_valid c
  have hofn : Char.ofNat c.toNat = c := Char.ofNat_toNat c
  unfold utf8EncodeScalar
  by_cases h1 : c.toNat < 128
  · rw [if_pos h1]
    simp only [List.cons_append, List.nil_append]
    unfold utf8DecodeChar
    simp only []
    rw [if_pos h1, hofn]
  · rw [if_neg h1]
    by_cases h2 : c.toNat < 2048
    · rw [if_pos h2]
      simp only [List.cons_append, List.nil_append]
      unfold utf8DecodeChar
      simp only []
      rw [if_neg (by omega), if_neg (by omega), if_pos (by omega)]
      rw [if_pos (by omega), if_pos (by omega)]
      have harith : (192 + c.toNat / 64 - 192) * 64 + (128 + c.toNat % 64 - 128) =
          c.toNat := by omega
      rw [harith, hofn]
    · rw [if_neg h2]
      by_cases h3 : c.toNat < 65536
      · rw [if_pos h3]
        simp only [List.cons_append, List.nil_append]
        unfold utf8DecodeChar
        simp only []
        rw [if_neg (by omega), if_neg (by omega), if_neg (by omega), if_pos (by omega)]
        rw [if_pos (by omega), if_pos (by omega)]
        have harith : (224 + c.toNat / 4096 - 224) * 4096 +
            (128 + c.toNat / 64 % 64 - 128) * 64 + (128 + c.toNat % 64 - 128) =
            c.toNat := by omega
        rw [harith, hofn]
      · rw [if_neg h3]
        simp only [List.cons_append, List.nil_append]
        unfold utf8DecodeChar
        simp only []
        rw [if_neg (by omega), if_neg (by omega), if_neg (by omega), if_neg (by omega),
          if_pos (by omega)]
        rw [if_pos (by omega), if_pos (by omega)]
        have harith : (240 + c.toNat / 262144 - 240) * 262144 +
            (128 + c.toNat / 4096 % 64 - 128) * 4096 +
            (128 + c.toNat / 64 % 64 - 128) * 64 + (128 + c.toNat % 64 - 128) =
            c.toNat := by omega
        rw [harith, hofn]

/-- A successfully decoded UTF-8 character re-encodes to the consumed bytes. -/
theorem utf8DecodeChar_inv (l : List Nat) (c : Char) (r : List Nat)
    (h : utf8DecodeChar l = some (c, r)) : utf8EncodeScalar c.toNat ++ r = l := by
  cases l with
  | nil => exact absurd h (by simp [utf8DecodeChar])
  | cons b0 t =>
    unfold utf8DecodeChar at h
    simp only [] at h
    by_cases h1 : b0 < 128
    · rw [if_pos h1] at h
      simp only [Option.some.injEq, Prod.mk.injEq] at h
      obtain ⟨hc, hr⟩ := h
      subst hr
      subst hc
      have htn : (Char.ofNat b0).toNat = b0 :=
        toNat_ofNat_valid b0 (by unfold Nat.isValidChar; omega)
      unfold utf8EncodeScalar
      rw [htn, if_pos h1]
      rfl
    · rw [if_neg h1] at h
      by_cases h2 : b0 < 192
      · rw [if_pos h2] at h
        exact absurd h (by simp)
      · rw [if_neg h2] at h
        by_cases h3 : b0 < 224
        · rw [if_pos h3] at h
          cases t with
          | nil => exact absurd h (by simp)
          | cons b1 r1 =>
            simp only [] at h
            by_cases h4 : 128 ≤ b1 ∧ b1 < 192
            · rw [if_pos h4] at h
              by_cases h5 : 128 ≤ (b0 - 192) * 64 + (b1 - 128)
              · rw [if_pos h5] at h
                simp only [Option.some.injEq, Prod.mk.injEq] at h
                obtain ⟨hc, hr⟩ := h
                subst hr
                subst hc
                have htn : (Char.ofNat ((b0 - 192) * 64 + (b1 - 128))).toNat =
                    (b0 - 192) * 64 + (b1 - 128) :=
                  toNat_ofNat_valid _ (by unfold Nat.isValidChar; omega)
                unfold utf8EncodeScalar
                rw [htn, if_neg (by omega), if_pos (by omega)]
                simp only [List.cons_append, List.nil_append, List.cons.injEq]
                refine ⟨by omega, by omega, trivial⟩
              · rw [if_neg h5] at h
                exact absurd h (by simp)
            · rw [if_neg h4] at h
              exact absurd h (by simp)
        · rw [if_neg h3] at h
          by_cases h6 : b0 < 240
          · rw [if_pos h6] at h
            match t with
            | [] => exact absurd h (by simp)
            | [b1] => exact absurd h (by simp)
            | b1 :: b2 :: r2 =>
              simp only [] at h
              by_cases h4 : (128 ≤ b1 ∧ b1 < 192) ∧ (128 ≤ b2 ∧ b2 < 192)
              · rw [if_pos h4] at h
                by_cases h5 : 2048 ≤ (b0 - 224) * 4096 + (b1 - 128) * 64 + (b2 - 128) ∧
                    ((b0 - 224) * 4096 + (b1 - 128) * 64 + (b2 - 128) < 55296 ∨
                     57343 < (b0 - 224) * 4096 + (b1 - 128) * 64 + (b2 - 128))
                · rw [if_pos h5] at h
                  simp only [Option.some.injEq, Prod.mk.injEq] at h
                  obtain ⟨hc, hr⟩ := h
                  subst hr
                  subst hc
                  have htn : (Char.ofNat
                      ((b0 - 224) * 4096 + (b1 - 128) * 64 + (b2 - 128))).toNat =
                      (b0 - 224) * 4096 + (b1 - 128) * 64 + (b2 - 128) :=
                    toNat_ofNat_valid _ (by unfold Nat.isValidChar; omega)
                  unfold utf8EncodeScalar
                  rw [htn, if_neg (by omega), if_neg (by omega), if_pos (by omega)]
                  simp only [List.cons_append, List.nil_append, List.cons.injEq]
                  refine ⟨by omega, by omega, by omega, trivial⟩
                · rw [if_neg h5] at h
                  exact absurd h (by simp)
              · rw [if_neg h4] at h
                exact absurd h (by simp)
          · rw [if_neg h6] at h
            by_cases h7 : b0 < 248
            · rw [if_pos h7] at h
              match t with
              | [] => exact absurd h (by simp)
              | [b1] => exact absurd h (by simp)
              | [b1, b2] => exact absurd h (by simp)
              | b1 :: b2 :: b3 :: r3 =>
                simp only [] at h
                by_cases h4 : (128 ≤ b1 ∧ b1 < 192) ∧ (128 ≤ b2 ∧ b2 < 192) ∧
                    (128 ≤ b3 ∧ b3 < 192)
                · rw [if_pos h4] at h
                  by_cases h5 : 65536 ≤ (b0 - 240) * 262144 + (b1 - 128) * 4096 +
                      (b2 - 128) * 64 + (b3 - 128) ∧
                      (b0 - 240) * 262144 + (b1 - 128) * 4096 +
                        (b2 - 128) * 64 + (b3 - 128) < 1114112
                  · rw [if_pos h5] at h
                    simp only [Option.some.injEq, Prod.mk.injEq] at h
                    obtain ⟨hc, hr⟩ := h
                    subst hr
                    subst hc
                    have htn : (Char.ofNat ((b0 - 240) * 262144 + (b1 - 128) * 4096 +
                        (b2 - 128) * 64 + (b3 - 128))).toNat =
                        (b0 - 240) * 262144 + (b1 - 128) * 4096 +
                          (b2 - 128) * 64 + (b3 - 128) :=
                      toNat_ofNat_valid _ (by unfold Nat.isValidChar; omega)
                    unfold utf8EncodeScalar
                    rw [htn, if_neg (by omega), if_neg (by omega), if_neg (by omega)]
                    simp only [List.cons_append, List.nil_append, List.cons.injEq]
                    refine ⟨by omega, by omega, by omega, by omega, trivial⟩
                  · rw [if_neg h5] at h
                    exact absurd h (by simp)
                · rw [if_neg h4] at h
                  exact absurd h (by simp)
            · rw [if_neg h7] at h
              exact absurd h (by simp)

/-- Decoding the UTF-8 bytes of a character list recovers it, with any fuel at
least the byte count. -/
theorem utf8DecodeAllAux_encode (cs : List Char) :
    ∀ fuel, (cs.flatMap fun c => utf8EncodeScalar c.toNat).length ≤ fuel →
      utf8DecodeAllAux fuel (cs.flatMap fun c => utf8EncodeScalar c.toNat) =
        some cs := by
  induction cs with
  | nil =>
    intro fuel _
    simp only [List.flatMap_nil]
    cases fuel <;> rfl
  | cons c tl ih =>
    intro fuel hlen
    simp only [List.flatMap_cons] at hlen ⊢
    cases hfc : utf8EncodeScalar c.toNat with
    | nil => exact absurd hfc (utf8EncodeScalar_ne_nil _)
    | cons e0 es =>
      rw [hfc] at hlen
      cases fuel with
      | zero =>
        simp [List.length_append] at hlen
      | succ f =>
        simp only [List.cons_append]
        unfold utf8DecodeAllAux
        have hdec := utf8DecodeChar_encode c (tl.flatMap fun x => utf8EncodeScalar x.toNat)
        rw [hfc] at hdec
        simp only [List.cons_append] at hdec
        rw [hdec]
        simp only []
        rw [ih f (by simp [List.length_append] at hlen ⊢; omega)]

/-- A successfully decoded UTF-8 byte string is the encoding of its characters. -/
theorem utf8DecodeAllAux_inv : ∀ (fuel : Nat) (l : List Nat) (cs : List Char),
    utf8DecodeAllAux fuel l = some cs →
      (cs.flatMap fun c => utf8EncodeScalar c.toNat) = l := by
  intro fuel
  induction fuel with
  | zero =>
    intro l cs h
    cases l with
    | nil =>
      simp only [utf8DecodeAllAux, Option.some.injEq] at h
      subst h
      rfl
    | cons b t => exact absurd h (by simp [utf8DecodeAllAux])
  | succ f ih =>
    intro l cs h
    cases l with
    | nil =>
      simp only [utf8DecodeAllAux, Option.some.injEq] at h
      subst h
      rfl
    | cons b t =>
      unfold utf8DecodeAllAux at h
      cases hd : utf8DecodeChar (b :: t) with
      | none =>
        rw [hd] at h
        exact absurd h (by simp)
      | some p =>
        obtain ⟨c, r⟩ := p
        rw [hd] at h
        simp only [] at h
        cases ha : utf8DecodeAllAux f r with
        | none =>
          rw [ha] at h
          exact absurd h (by simp)
        | some cs2 =>
          rw [ha] at h
          simp only [Option.some.injEq] at h
          subst h
          simp only [List.flatMap_cons]
          rw [ih r cs2 ha]
          exact utf8DecodeChar_inv (b :: t) c r hd

/-- Borsh string decoding inverts borsh string encoding when the byte length
fits in a `u32`. -/
theorem borshDecodeString_encode (s : String) (rest : List Nat)
    (hlen : (strBytes s).length < 4294967296) :
    borshDecodeString (borshEncodeString s ++ rest) = some (s, rest) := by
  unfold borshEncodeString borshDecodeString
  rw [List.append_assoc]
  rw [readU32_u32le _ _ hlen]
  simp only []
  rw [readBytes_append]
  simp only []
  show (match utf8DecodeAllAux (strBytes s).length
      (s.data.flatMap fun c => utf8EncodeScalar c.toNat) with
    | none => none
    | some cs => some (String.mk cs, rest)) = some (s, rest)
  rw [show (strBytes s).length =
    (s.data.flatMap fun c => utf8EncodeScalar c.toNat).length from rfl]
  rw [utf8DecodeAllAux_encode s.data _ (le_refl _)]

/-- Borsh string encoding rebuilds exactly a successfully decoded byte string. -/
theorem borshDecodeString_inv (l : List Nat) (s : String) (r : List Nat)
    (h : borshDecodeString l = some (s, r)) : borshEncodeString s ++ r = l := by
  unfold borshDecodeString at h
  split at h
  · exact absurd h (by simp)
  · rename_i len r1 hu
    split at h
    · exact absurd h (by simp)
    · rename_i bs r2 hb
      split at h
      · exact absurd h (by simp)
      · rename_i cs hc
        simp only [Option.some.injEq, Prod.mk.injEq] at h
        obtain ⟨hs, hr⟩ := h
        subst hr
        subst hs
        obtain ⟨hsplit, hblen⟩ := readBytes_inv _ _ _ _ hb
        have hbytes : strBytes (String.mk cs) = bs := utf8DecodeAllAux_inv _ _ _ hc
        unfold borshEncodeString
        rw [hbytes, hblen, List.append_assoc, hsplit]
        exact readU32_inv _ _ _ hu

/-- Reading back a little-endian `u64` recovers a value below `2^64`. -/
theorem readU64_u64le (n : Nat) (rest : List Nat) (h : n < 18446744073709551616) :
    readU64 (u64le n ++ rest) = some (n, rest) := by
  simp only [u64le, List.cons_append, List.nil_append, readU64]
  rw [if_pos (by
    refine ⟨by omega, by omega, by omega, by omega, by omega, by omega, by omega, by omega⟩)]
  have hval : n % 256 + 256 * (n / 256 % 256) + 65536 * (n / 65536 % 256) +
      16777216 * (n / 16777216 % 256) + 4294967296 * (n / 4294967296 % 256) +
      1099511627776 * (n / 1099511627776 % 256) +
      281474976710656 * (n / 281474976710656 % 256) +
      72057594037927936 * (n / 72057594037927936 % 256) = n := by omega
  rw [hval]

/-- A successful `readU64` came from the little-endian bytes of its result. -/
theorem readU64_inv (b : List Nat) (n : Nat) (rest : List Nat)
    (h : readU64 b = some (n, rest)) : u64le n ++ rest = b := by
  unfold readU64 at h
  split at h
  · rename_i b0 b1 b2 b3 b4 b5 b6 b7 r
    split at h
    · rename_i hc
      simp only [Option.some.injEq, Prod.mk.injEq] at h
      obtain ⟨hn, hr⟩ := h
      subst hn
      subst hr
      simp only [u64le, List.cons_append, List.nil_append, List.cons.injEq, and_true]
      omega
    · exact absurd h (by simp)
  · exact absurd h (by simp)

/-- Borsh height decoding inverts encoding for `u64`-ranged fields. -/
theorem borshDecodeHeight_encode (h : Height) (rest : List Nat)
    (h1 : h.revision_number < 18446744073709551616)
    (h2 : h.revision_height < 18446744073709551616) :
    borshDecodeHeight (h.borshEncode ++ rest) = some (h, rest) := by
  unfold Height.borshEncode borshDecodeHeight
  rw [List.append_assoc]
  rw [readU64_u64le _ _ h1]
  simp only []
  rw [readU64_u64le _ _ h2]

/-- Borsh height encoding rebuilds exactly a successfully decoded byte string. -/
theorem borshDecodeHeight_inv (l : List Nat) (h : Height) (r : List Nat)
    (hd : borshDecodeHeight l = some (h, r)) : h.borshEncode ++ r = l := by
  unfold borshDecodeHeight at hd
  split at hd
  · exact absurd hd (by simp)
  · rename_i a r1 hu1
    split at hd
    · exact absurd hd (by simp)
    · rename_i b r2 hu2
      simp only [Option.some.injEq, Prod.mk.injEq] at hd
      obtain ⟨hh, hr⟩ := hd
      subst hr
      subst hh
      unfold Height.borshEncode
      simp only
      rw [List.append_assoc, readU64_inv _ _ _ hu2]
      exact readU64_inv _ _ _ hu1

/-- Decoding `k` heights inverts encoding a `k`-element list. -/
theorem borshDecodeHeightsAux_encode (hs : List Height) (rest : List Nat)
    (hb : ∀ x ∈ hs, x.revision_number < 18446744073709551616 ∧
      x.revision_height < 18446744073709551616) :
    borshDecodeHeightsAux hs.length (hs.flatMap Height.borshEncode ++ rest) =
      some (hs, rest) := by
  induction hs with
  | nil => rfl
  | cons x xs ih =>
    simp only [List.flatMap_cons, List.length_cons]
    unfold borshDecodeHeightsAux
    rw [List.append_assoc]
    rw [borshDecodeHeight_encode x _ (hb x (by simp)).1 (hb x (by simp)).2]
    simp only []
    rw [ih fun y hy => hb y (by simp [hy])]

/-- A successfully decoded height run is the encoding of its list. -/
theorem borshDecodeHeightsAux_inv : ∀ (k : Nat) (l : List Nat) (hs : List Height)
    (r : List Nat), borshDecodeHeightsAux k l = some (hs, r) →
      hs.flatMap Height.borshEncode ++ r = l ∧ hs.length = k := by
  intro k
  induction k with
  | zero =>
    intro l hs r h
    simp only [borshDecodeHeightsAux, Option.some.injEq, Prod.mk.injEq] at h
    obtain ⟨h1, h2⟩ := h
    subst h1
    subst h2
    simp
  | succ n ih =>
    intro l hs r h
    unfold borshDecodeHeightsAux at h
    cases hd : borshDecodeHeight l with
    | none =>
      rw [hd] at h
      exact absurd h (by simp)
    | some p =>
      obtain ⟨x, r1⟩ := p
      rw [hd] at h
      simp only [] at h
      cases ha : borshDecodeHeightsAux n r1 with
      | none =>
        rw [ha] at h
        exact absurd h (by simp)
      | some q =>
        obtain ⟨xs, r2⟩ := q
        rw [ha] at h
        simp only [Option.some.injEq, Prod.mk.injEq] at h
        obtain ⟨hh, hr⟩ := h
        subst hr
        subst hh
        obtain ⟨hsplit, hlen⟩ := ih r1 xs r2 ha
        constructor
        · simp only [List.flatMap_cons, List.append_assoc]
          rw [hsplit]
          exact borshDecodeHeight_inv _ _ _ hd
        · simp [hlen]

/-- Borsh `Vec<Height>` decoding inverts encoding when the count fits a `u32`
and the fields fit a `u64`. -/
theorem borshDecodeHeights_encode (hs : List Height) (rest : List Nat)
    (hlen : hs.length < 4294967296)
    (hb : ∀ x ∈ hs, x.revision_number < 18446744073709551616 ∧
      x.revision_height < 18446744073709551616) :
    borshDecodeHeights (borshEncodeHeights hs ++ rest) = some (hs, rest) := by
  unfold borshEncodeHeights borshDecodeHeights
  rw [List.append_assoc]
  rw [readU32_u32le _ _ hlen]
  simp only []
  exact borshDecodeHeightsAux_encode hs rest hb

/-- Borsh `Vec<Height>` encoding rebuilds exactly a successfully decoded byte
string. -/
theorem borshDecodeHeights_inv (l : List Nat) (hs : List Height) (r : List Nat)
    (h : borshDecodeHeights l = some (hs, r)) : borshEncodeHeights hs ++ r = l := by
  unfold borshDecodeHeights at h
  split at h
  · exact absurd h (by simp)
  · rename_i k r1 hu
    obtain ⟨hsplit, hlen⟩ := borshDecodeHeightsAux_inv k r1 hs r h
    unfold borshEncodeHeights
    rw [hlen, List.append_assoc, hsplit]
    exact readU32_inv _ _ _ hu

/-! ## Claims -/

/-- C1: the claim requires `check_header_and_update_state` to fail with
`HeaderVerificationFailed` whenever the header is not strictly newer than the
trusted height. At the spec scenario — trusted latest height `(0,100)`, header
claiming the equal height `(0,100)` — the source succeeds instead, because its
height-monotonicity check is commented out: the call returns `Ok` with the
updated state pair, never an error. -/
theorem C1_check_header_accepts_non_newer_height :
    ({ latest_height := { revision_number := 0, revision_height := 100 } } :
        GrandpaClientState).latest_height =
      ({ height := { revision_number := 0, revision_height := 100 },
         finality_payload := [] } : GrandpaHeader).height ∧
    GrandpaClient.check_header_and_update_state
        { latest_height := { revision_number := 0, revision_height := 100 } }
        { height := { revision_number := 0, revision_height := 100 },
          finality_payload := [] } =
      Except.ok ({ latest_height := { revision_number := 0, revision_height := 100 } },
        { data := [] }) :=
  ⟨rfl, rfl⟩

/-- C2: the claim requires `verify_client_consensus_state` to fail with
`ProofVerificationFailed` when the proof does not attest the expected consensus
state, returning `Ok(())` only on a match. The source ignores every argument
and returns `Ok(())` unconditionally: here an empty proof with an arbitrary
expected state is accepted, and the universal clause shows no input whatsoever
is rejected. -/
theorem C2_verify_client_consensus_state_ignores_proof :
    GrandpaClient.verify_client_consensus_state
        { latest_height := { revision_number := 0, revision_height := 100 } }
        { revision_number := 0, revision_height := 100 } [] [] "07-grandpa-0"
        { revision_number := 0, revision_height := 99 } [1, 2, 3] = Except.ok () ∧
    ∀ (cs : GrandpaClientState) (h : Height) (pre : CommitmentPrefix)
      (proof : CommitmentProofBytes) (cid : ClientId) (ch : Height)
      (ecs : AnyConsensusState),
      GrandpaClient.verify_client_consensus_state cs h pre proof cid ch ecs =
        Except.ok () :=
  ⟨rfl, fun _ _ _ _ _ _ _ => rfl⟩

/-- C7: every verification/update operation of the GRANDPA client is a total
function of its inputs that returns a `Result` value — in fact always `Ok` —
so no input panics or aborts: the embedding has no panic outcome because the
source has no panicking path (its `todo!()`s are commented out). -/
theorem C7_grandpa_operations_never_panic :
    (∀ cs hdr, GrandpaClient.check_header_and_update_state cs hdr =
      Except.ok (cs.with_header hdr, GrandpaConsensusState.ofHeader hdr)) ∧
    (∀ cs h pre p cid ch ecs,
      GrandpaClient.verify_client_consensus_state cs h pre p cid ch ecs =
        Except.ok ()) ∧
    (∀ cs h pre p cid ece,
      GrandpaClient.verify_connection_state cs h pre p cid ece = Except.ok ()) ∧
    (∀ cs h pre p pid chid ece,
      GrandpaClient.verify_channel_state cs h pre p pid chid ece = Except.ok ()) ∧
    (∀ cs h r pre cid p ecs,
      GrandpaClient.verify_client_full_state cs h r pre cid p ecs = Except.ok ()) ∧
    (∀ cs h p pid chid sq d,
      GrandpaClient.verify_packet_data cs h p pid chid sq d = Except.ok ()) ∧
    (∀ cs h p pid chid sq d,
      GrandpaClient.verify_packet_acknowledgement cs h p pid chid sq d =
        Except.ok ()) ∧
    (∀ cs h p pid chid sq,
      GrandpaClient.verify_next_sequence_recv cs h p pid chid sq = Except.ok ()) ∧
    (∀ cs h p pid chid sq,
      GrandpaClient.verify_packet_receipt_absence cs h p pid chid sq =
        Except.ok ()) ∧
    (∀ cs ns p1 p2, GrandpaClient.verify_upgrade_and_update_state cs ns p1 p2 =
      Except.ok (cs, ns)) :=
  ⟨fun _ _ => rfl, fun _ _ _ _ _ _ _ => rfl, fun _ _ _ _ _ _ => rfl,
   fun _ _ _ _ _ _ _ => rfl, fun _ _ _ _ _ _ _ => rfl, fun _ _ _ _ _ _ _ => rfl,
   fun _ _ _ _ _ _ _ => rfl, fun _ _ _ _ _ _ => rfl, fun _ _ _ _ _ _ => rfl,
   fun _ _ _ _ => rfl⟩

/-- C9: `verify_upgrade_and_update_state` always succeeds and returns exactly
the input client/consensus state pair, whatever the two upgrade proofs are. -/
theorem C9_verify_upgrade_is_identity (cs : GrandpaClientState)
    (ns : GrandpaConsensusState) (p1 p2 : MerkleProof) :
    GrandpaClient.verify_upgrade_and_update_state cs ns p1 p2 =
      Except.ok (cs, ns) :=
  rfl

/-- C3: converted to a wire event, every `CreateClient` event carries exactly
the attribute keys `client_id`, `client_type`, `consensus_height`, and every
`UpdateClient` event carries exactly `client_id`, `client_type`,
`consensus_height`, `consensus_heights`, `header` — the deprecated singular
height is always present alongside the plural one. -/
theorem C3_event_attribute_sets (c : CreateClient) (u : UpdateClient) :
    c.toAbciEvent.attributes.map EventAttribute.key =
      [CLIENT_ID_ATTRIBUTE_KEY, CLIENT_TYPE_ATTRIBUTE_KEY,
       CONSENSUS_HEIGHT_ATTRIBUTE_KEY] ∧
    u.toAbciEvent.attributes.map EventAttribute.key =
      [CLIENT_ID_ATTRIBUTE_KEY, CLIENT_TYPE_ATTRIBUTE_KEY,
       CONSENSUS_HEIGHT_ATTRIBUTE_KEY, CONSENSUS_HEIGHTS_ATTRIBUTE_KEY,
       HEADER_ATTRIBUTE_KEY] :=
  ⟨rfl, rfl⟩

/-- C5: the `consensus_heights` attribute value is the comma-joined decimal
forms of the heights, and on the spec scenario `[(0,100),(0,101)]` it is the
literal string `"0-100,0-101"`. -/
theorem C5_consensus_heights_comma_joined (hs : List Height) :
    ConsensusHeightsAttribute.toEventAttribute { consensus_heights := hs } =
      { key := CONSENSUS_HEIGHTS_ATTRIBUTE_KEY
        value := String.intercalate "," (hs.map Height.toDecimalString) } ∧
    (ConsensusHeightsAttribute.toEventAttribute
        { consensus_heights := [{ revision_number := 0, revision_height := 100 },
          { revision_number := 0, revision_height := 101 }] }).value =
      "0-100,0-101" :=
  ⟨rfl, by decide⟩

/-- C6: the spec scenario: a `CreateClient` event built from
`client_id = "07-grandpa-0"`, `client_type = "07-grandpa"`,
`consensus_height = (0,100)` converts to a wire event of kind `create_client`
whose `consensus_height` attribute value is the literal string `"0-100"`. -/
theorem C6_create_client_scenario :
    (CreateClient.new "07-grandpa-0" "07-grandpa"
        { revision_number := 0, revision_height := 100 }).toAbciEvent =
      { kind := "create_client"
        attributes := [{ key := "client_id", value := "07-grandpa-0" },
          { key := "client_type", value := "07-grandpa" },
          { key := "consensus_height", value := "0-100" }] } := by
  decide

/-- C10: the tagged key/value encoding of the header attribute depends only on
the payload's value bytes (hex under key `header`) and discards the type URL:
payloads with equal value bytes produce identical attributes, and the encoding
is not injective on header payloads. -/
theorem C10_header_tagged_encoding_ignores_type_url (a1 a2 : ProtoAny)
    (h : a1.value = a2.value) :
    HeaderAttribute.toEventAttribute { header := a1 } =
      HeaderAttribute.toEventAttribute { header := a2 } ∧
    ¬ Function.Injective
        fun a : ProtoAny => HeaderAttribute.toEventAttribute { header := a } := by
  constructor
  · simp only [HeaderAttribute.toEventAttribute, h]
  · intro hinj
    have hcol :
        ({ type_url := [1], value := [] } : ProtoAny) =
          { type_url := [2], value := [] } :=
      @hinj { type_url := [1], value := [] } { type_url := [2], value := [] } rfl
    simp at hcol

/-- C10 witness: two concrete payloads sharing value bytes `[7]` but with
different type URLs produce the same event attribute while being distinct. -/
theorem C10_header_tagged_encoding_witness :
    ({ type_url := [1], value := [7] } : ProtoAny).value =
      ({ type_url := [2], value := [7] } : ProtoAny).value ∧
    ({ type_url := [1], value := [7] } : ProtoAny) ≠ { type_url := [2], value := [7] } ∧
    HeaderAttribute.toEventAttribute { header := { type_url := [1], value := [7] } } =
      HeaderAttribute.toEventAttribute { header := { type_url := [2], value := [7] } } :=
  ⟨rfl, by decide,
   (C10_header_tagged_encoding_ignores_type_url
     { type_url := [1], value := [7] } { type_url := [2], value := [7] } rfl).1⟩

/-- C8: the `query connections` command: a chain id absent from the
configuration exits with a formatted error; a chain resolving to the `cosmos`
or `substrate` backend prints the connection identifiers on query success and
a formatted error exit on query failure; any backend tag outside that closed
set aborts fatally with `panic!("Unknown chain type")` rather than returning a
recoverable error. -/
theorem C8_query_connections_dispatch (chain_id : ChainId) (cfg : ChainConfig)
    (env : QueryEnv) :
    QueryConnectionsCmd.run chain_id none env =
      CliOutcome.errorExit
        ("chain \x27" ++ chain_id ++ "\x27 not found in configuration file") ∧
    (cfg.account_pfx = "cosmos" → env.bootstrap_cosmos = Except.ok () →
      (∀ conns, env.query_connections = Except.ok conns →
        QueryConnectionsCmd.run chain_id (some cfg) env =
          CliOutcome.successExit (conns.map IdentifiedConnection.connection_id)) ∧
      (∀ e, env.query_connections = Except.error e →
        QueryConnectionsCmd.run chain_id (some cfg) env = CliOutcome.errorExit e)) ∧
    (cfg.account_pfx = "substrate" → env.bootstrap_substrate = Except.ok () →
      (∀ conns, env.query_connections = Except.ok conns →
        QueryConnectionsCmd.run chain_id (some cfg) env =
          CliOutcome.successExit (conns.map IdentifiedConnection.connection_id)) ∧
      (∀ e, env.query_connections = Except.error e →
        QueryConnectionsCmd.run chain_id (some cfg) env = CliOutcome.errorExit e)) ∧
    (cfg.account_pfx ≠ "cosmos" → cfg.account_pfx ≠ "substrate" →
      QueryConnectionsCmd.run chain_id (some cfg) env =
        CliOutcome.panicked "Unknown chain type") := by
  obtain ⟨pfx⟩ := cfg
  obtain ⟨bcos, bsub, q⟩ := env
  refine ⟨rfl, ?_, ?_, ?_⟩
  · intro h1 h2
    subst h1
    subst h2
    refine ⟨?_, ?_⟩
    · intro conns hq
      subst hq
      rfl
    · intro e hq
      subst hq
      rfl
  · intro h1 h2
    subst h1
    subst h2
    refine ⟨?_, ?_⟩
    · intro conns hq
      subst hq
      rfl
    · intro e hq
      subst hq
      rfl
  · intro h1 h2
    show (if pfx = "cosmos" then _ else if pfx = "substrate" then _ else
      CliOutcome.panicked "Unknown chain type") = CliOutcome.panicked "Unknown chain type"
    rw [if_neg h1, if_neg h2]

/-- C8 witness: with a configured backend tag `"near"` the command panics
fatally, with `"cosmos"` and a successful query it prints the connection ids,
and with `"cosmos"` and a failed query it exits with the formatted error. -/
theorem C8_query_connections_witness :
    QueryConnectionsCmd.run "ibc-0" (some { account_pfx := "near" })
      { bootstrap_cosmos := Except.ok (), bootstrap_substrate := Except.ok ()
        query_connections := Except.ok [] } =
      CliOutcome.panicked "Unknown chain type" ∧
    QueryConnectionsCmd.run "ibc-0" (some { account_pfx := "cosmos" })
      { bootstrap_cosmos := Except.ok (), bootstrap_substrate := Except.ok ()
        query_connections := Except.ok [{ connection_id := "connection-0" }] } =
      CliOutcome.successExit ["connection-0"] ∧
    QueryConnectionsCmd.run "ibc-0" (some { account_pfx := "cosmos" })
      { bootstrap_cosmos := Except.ok (), bootstrap_substrate := Except.ok ()
        query_connections := Except.error "query failed" } =
      CliOutcome.errorExit "query failed" :=
  ⟨(C8_query_connections_dispatch "ibc-0" { account_pfx := "near" }
      { bootstrap_cosmos := Except.ok (), bootstrap_substrate := Except.ok ()
        query_connections := Except.ok [] }).2.2.2 (by decide) (by decide),
   ((C8_query_connections_dispatch "ibc-0" { account_pfx := "cosmos" }
      { bootstrap_cosmos := Except.ok (), bootstrap_substrate := Except.ok ()
        query_connections :=
          Except.ok [{ connection_id := "connection-0" }] }).2.1 rfl rfl).1
     [{ connection_id := "connection-0" }] rfl,
   ((C8_query_connections_dispatch "ibc-0" { account_pfx := "cosmos" }
      { bootstrap_cosmos := Except.ok (), bootstrap_substrate := Except.ok ()
        query_connections := Except.error "query failed" }).2.1 rfl rfl).2
     "query failed" rfl⟩

/-- C4 counterexample: the claim asserts `decode(encode(v)) == v` for every
attribute encoding, in particular the header attribute's tagged key/value
form. That encoding keeps only the hex of the value bytes and discards the
type URL, so the two distinct payloads `([1],[7])` and `([2],[7])` encode to
the same attribute — hence no decoder can invert the tagged form. -/
theorem C4_header_tagged_form_not_invertible :
    HeaderAttribute.toEventAttribute { header := { type_url := [1], value := [7] } } =
      HeaderAttribute.toEventAttribute { header := { type_url := [2], value := [7] } } ∧
    ({ header := { type_url := [1], value := [7] } } : HeaderAttribute) ≠
      { header := { type_url := [2], value := [7] } } ∧
    ¬ ∃ dec : EventAttribute → HeaderAttribute,
        ∀ a : HeaderAttribute, dec a.toEventAttribute = a := by
  refine ⟨rfl, by decide, ?_⟩
  rintro ⟨dec, hdec⟩
  have h1 := hdec { header := { type_url := [1], value := [7] } }
  have h2 := hdec { header := { type_url := [2], value := [7] } }
  have hsame : ({ header := { type_url := [1], value := [7] } } : HeaderAttribute) =
      { header := { type_url := [2], value := [7] } } := by
    rw [← h1, ← h2]
    exact congrArg dec rfl
  simp at hsame

/-- C4 (amended): every event attribute type round-trips through its
encodings as far as they are invertible at all: the tagged key/value forms of
`client_id`, `client_type`, `consensus_height` and `consensus_heights` decode
back to the original attribute; the canonical binary (borsh) encoding of all
five attribute types round-trips in both directions â `decode(encode(v)) = v`
for values within the wire types’ ranges (`u32` byte lengths and counts,
`u64` height fields) and `encode(decode(b)) = b` for every fully consumed
well-formed byte string â and the hex text encoding of the header’s value
bytes decodes back to the original bytes. Only the header attribute’s
tagged key/value form is excluded: it discards the `type_url` and is not
invertible (see the counterexample). -/
theorem C4_attribute_encoding_roundtrips :
    (∀ a : ClientIdAttribute,
      ClientIdAttribute.tagDecode a.toEventAttribute = some a) ∧
    (∀ a : ClientTypeAttribute,
      ClientTypeAttribute.tagDecode a.toEventAttribute = some a) ∧
    (∀ a : ConsensusHeightAttribute,
      ConsensusHeightAttribute.tagDecode a.toEventAttribute = some a) ∧
    (∀ a : ConsensusHeightsAttribute,
      ConsensusHeightsAttribute.tagDecode a.toEventAttribute = some a) ∧
    (∀ a : ClientIdAttribute, (strBytes a.client_id).length < 4294967296 →
      ClientIdAttribute.borshDeserializeBytes a.borshSerializeBytes = some (a, [])) ∧
    (∀ (b : List Nat) (a : ClientIdAttribute),
      ClientIdAttribute.borshDeserializeBytes b = some (a, []) →
      a.borshSerializeBytes = b) ∧
    (∀ a : ClientTypeAttribute, (strBytes a.client_type).length < 4294967296 →
      ClientTypeAttribute.borshDeserializeBytes a.borshSerializeBytes = some (a, [])) ∧
    (∀ (b : List Nat) (a : ClientTypeAttribute),
      ClientTypeAttribute.borshDeserializeBytes b = some (a, []) →
      a.borshSerializeBytes = b) ∧
    (∀ a : ConsensusHeightAttribute,
      a.consensus_height.revision_number < 18446744073709551616 →
      a.consensus_height.revision_height < 18446744073709551616 →
      ConsensusHeightAttribute.borshDeserializeBytes a.borshSerializeBytes =
        some (a, [])) ∧
    (∀ (b : List Nat) (a : ConsensusHeightAttribute),
      ConsensusHeightAttribute.borshDeserializeBytes b = some (a, []) →
      a.borshSerializeBytes = b) ∧
    (∀ a : ConsensusHeightsAttribute, a.consensus_heights.length < 4294967296 →
      (∀ x ∈ a.consensus_heights, x.revision_number < 18446744073709551616 ∧
        x.revision_height < 18446744073709551616) →
      ConsensusHeightsAttribute.borshDeserializeBytes a.borshSerializeBytes =
        some (a, [])) ∧
    (∀ (b : List Nat) (a : ConsensusHeightsAttribute),
      ConsensusHeightsAttribute.borshDeserializeBytes b = some (a, []) →
      a.borshSerializeBytes = b) ∧
    (∀ a : HeaderAttribute, a.header.type_url.length < 4294967296 →
      a.header.value.length < 4294967296 →
      HeaderAttribute.borshDeserializeBytes (HeaderAttribute.borshSerializeBytes a) =
        some (a, [])) ∧
    (∀ (b : List Nat) (a : HeaderAttribute),
      HeaderAttribute.borshDeserializeBytes b = some (a, []) →
      HeaderAttribute.borshSerializeBytes a = b) ∧
    (∀ bs : List Nat, (∀ x ∈ bs, x < 256) →
      hexDecode (hexEncode bs) = some bs) := by
  refine ⟨?_, ?_, ?_, ?_, ?_, ?_, ?_, ?_, ?_, ?_, ?_, ?_, ?_, ?_, ?_⟩
  · intro a
    rfl
  · intro a
    rfl
  · intro a
    unfold ConsensusHeightAttribute.tagDecode ConsensusHeightAttribute.toEventAttribute
    rw [if_pos rfl]
    unfold parseHeight
    rw [parseHeightChars_toDecimalString]
    rfl
  · intro a
    unfold ConsensusHeightsAttribute.tagDecode ConsensusHeightsAttribute.toEventAttribute
    rw [if_pos rfl]
    rw [parseHeights_intercalate]
    rfl
  · intro a hlen
    unfold ClientIdAttribute.borshSerializeBytes ClientIdAttribute.borshDeserializeBytes
    have hd := borshDecodeString_encode a.client_id [] hlen
    rw [List.append_nil] at hd
    rw [hd]
  · intro b a h
    unfold ClientIdAttribute.borshDeserializeBytes at h
    split at h
    · exact absurd h (by simp)
    · rename_i s r hs
      simp only [Option.some.injEq, Prod.mk.injEq] at h
      obtain ⟨ha, hr⟩ := h
      subst hr
      subst ha
      have hres := borshDecodeString_inv b s [] hs
      rw [List.append_nil] at hres
      exact hres
  · intro a hlen
    unfold ClientTypeAttribute.borshSerializeBytes ClientTypeAttribute.borshDeserializeBytes
    have hd := borshDecodeString_encode a.client_type [] hlen
    rw [List.append_nil] at hd
    rw [hd]
  · intro b a h
    unfold ClientTypeAttribute.borshDeserializeBytes at h
    split at h
    · exact absurd h (by simp)
    · rename_i s r hs
      simp only [Option.some.injEq, Prod.mk.injEq] at h
      obtain ⟨ha, hr⟩ := h
      subst hr
      subst ha
      have hres := borshDecodeString_inv b s [] hs
      rw [List.append_nil] at hres
      exact hres
  · intro a h1 h2
    unfold ConsensusHeightAttribute.borshSerializeBytes
      ConsensusHeightAttribute.borshDeserializeBytes
    have hd := borshDecodeHeight_encode a.consensus_height [] h1 h2
    rw [List.append_nil] at hd
    rw [hd]
  · intro b a h
    unfold ConsensusHeightAttribute.borshDeserializeBytes at h
    split at h
    · exact absurd h (by simp)
    · rename_i x r hx
      simp only [Option.some.injEq, Prod.mk.injEq] at h
      obtain ⟨ha, hr⟩ := h
      subst hr
      subst ha
      have hres := borshDecodeHeight_inv b x [] hx
      rw [List.append_nil] at hres
      exact hres
  · intro a hlen hb
    unfold ConsensusHeightsAttribute.borshSerializeBytes
      ConsensusHeightsAttribute.borshDeserializeBytes
    have hd := borshDecodeHeights_encode a.consensus_heights [] hlen hb
    rw [List.append_nil] at hd
    rw [hd]
  · intro b a h
    unfold ConsensusHeightsAttribute.borshDeserializeBytes at h
    split at h
    · exact absurd h (by simp)
    · rename_i hs r hhs
      simp only [Option.some.injEq, Prod.mk.injEq] at h
      obtain ⟨ha, hr⟩ := h
      subst hr
      subst ha
      have hres := borshDecodeHeights_inv b hs [] hhs
      rw [List.append_nil] at hres
      exact hres
  · intro a hu hv
    unfold HeaderAttribute.borshSerializeBytes HeaderAttribute.borshDeserializeBytes
    have hdec := innerAny_borshDecode_borshEncode
      { type_url := a.header.type_url, value := a.header.value } hu hv
    rw [hdec]
  · intro b a h
    unfold HeaderAttribute.borshDeserializeBytes at h
    split at h
    · rename_i ia rest hia
      simp only [Option.some.injEq, Prod.mk.injEq] at h
      obtain ⟨ha, hrest⟩ := h
      subst hrest
      subst ha
      unfold HeaderAttribute.borshSerializeBytes
      exact innerAny_borshEncode_borshDecode b ia hia
    · exact absurd h (by simp)
  · intro bs h
    unfold hexDecode hexEncode
    exact hexDecodeChars_hexEncode bs h

/-- C4 witness: the round-trips evaluated on concrete attribute values: a
height attribute through its tagged form, a heights list through its tagged
form, each attribute type through borsh in both directions, and the hex text
form of concrete bytes. -/
theorem C4_attribute_encoding_witness :
    ConsensusHeightAttribute.tagDecode
        (ConsensusHeightAttribute.toEventAttribute
          { consensus_height := { revision_number := 0, revision_height := 100 } }) =
      some { consensus_height := { revision_number := 0, revision_height := 100 } } ∧
    ConsensusHeightsAttribute.tagDecode
        (ConsensusHeightsAttribute.toEventAttribute
          { consensus_heights := [{ revision_number := 0, revision_height := 100 },
            { revision_number := 0, revision_height := 101 }] }) =
      some { consensus_heights := [{ revision_number := 0, revision_height := 100 },
        { revision_number := 0, revision_height := 101 }] } ∧
    ClientIdAttribute.borshDeserializeBytes
        (ClientIdAttribute.borshSerializeBytes { client_id := "id" }) =
      some ({ client_id := "id" }, []) ∧
    ClientIdAttribute.borshSerializeBytes { client_id := "id" } =
      [2, 0, 0, 0, 105, 100] ∧
    ClientTypeAttribute.borshDeserializeBytes
        (ClientTypeAttribute.borshSerializeBytes { client_type := "07-grandpa" }) =
      some ({ client_type := "07-grandpa" }, []) ∧
    ClientTypeAttribute.borshSerializeBytes { client_type := "07-grandpa" } =
      [10, 0, 0, 0, 48, 55, 45, 103, 114, 97, 110, 100, 112, 97] ∧
    ConsensusHeightAttribute.borshDeserializeBytes
        (ConsensusHeightAttribute.borshSerializeBytes
          { consensus_height := { revision_number := 0, revision_height := 100 } }) =
      some ({ consensus_height := { revision_number := 0, revision_height := 100 } },
        []) ∧
    ConsensusHeightAttribute.borshSerializeBytes
        { consensus_height := { revision_number := 0, revision_height := 100 } } =
      [0, 0, 0, 0, 0, 0, 0, 0, 100, 0, 0, 0, 0, 0, 0, 0] ∧
    ConsensusHeightsAttribute.borshDeserializeBytes
        (ConsensusHeightsAttribute.borshSerializeBytes
          { consensus_heights := [{ revision_number := 0, revision_height := 100 }] }) =
      some ({ consensus_heights := [{ revision_number := 0, revision_height := 100 }] },
        []) ∧
    ConsensusHeightsAttribute.borshSerializeBytes
        { consensus_heights := [{ revision_number := 0, revision_height := 100 }] } =
      [1, 0, 0, 0, 0, 0, 0, 0, 0, 0, 0, 0, 100, 0, 0, 0, 0, 0, 0, 0] ∧
    HeaderAttribute.borshDeserializeBytes
        (HeaderAttribute.borshSerializeBytes
          { header := { type_url := [7], value := [1, 2] } }) =
      some ({ header := { type_url := [7], value := [1, 2] } }, []) ∧
    HeaderAttribute.borshSerializeBytes { header := { type_url := [7], value := [1, 2] } } =
      [1, 0, 0, 0, 7, 2, 0, 0, 0, 1, 2] ∧
    hexDecode (hexEncode [0, 255]) = some [0, 255] :=
  ⟨C4_attribute_encoding_roundtrips.2.2.1
      { consensus_height := { revision_number := 0, revision_height := 100 } },
   C4_attribute_encoding_roundtrips.2.2.2.1
      { consensus_heights := [{ revision_number := 0, revision_height := 100 },
        { revision_number := 0, revision_height := 101 }] },
   C4_attribute_encoding_roundtrips.2.2.2.2.1 { client_id := "id" } (by decide),
   C4_attribute_encoding_roundtrips.2.2.2.2.2.1 [2, 0, 0, 0, 105, 100]
      { client_id := "id" } (by decide),
   C4_attribute_encoding_roundtrips.2.2.2.2.2.2.1 { client_type := "07-grandpa" }
      (by decide),
   C4_attribute_encoding_roundtrips.2.2.2.2.2.2.2.1
      [10, 0, 0, 0, 48, 55, 45, 103, 114, 97, 110, 100, 112, 97]
      { client_type := "07-grandpa" } (by decide),
   C4_attribute_encoding_roundtrips.2.2.2.2.2.2.2.2.1
      { consensus_height := { revision_number := 0, revision_height := 100 } }
      (by decide) (by decide),
   C4_attribute_encoding_roundtrips.2.2.2.2.2.2.2.2.2.1
      [0, 0, 0, 0, 0, 0, 0, 0, 100, 0, 0, 0, 0, 0, 0, 0]
      { consensus_height := { revision_number := 0, revision_height := 100 } }
      (by decide),
   C4_attribute_encoding_roundtrips.2.2.2.2.2.2.2.2.2.2.1
      { consensus_heights := [{ revision_number := 0, revision_height := 100 }] }
      (by decide) (by decide),
   C4_attribute_encoding_roundtrips.2.2.2.2.2.2.2.2.2.2.2.1
      [1, 0, 0, 0, 0, 0, 0, 0, 0, 0, 0, 0, 100, 0, 0, 0, 0, 0, 0, 0]
      { consensus_heights := [{ revision_number := 0, revision_height := 100 }] }
      (by decide),
   C4_attribute_encoding_roundtrips.2.2.2.2.2.2.2.2.2.2.2.2.1
      { header := { type_url := [7], value := [1, 2] } } (by decide) (by decide),
   C4_attribute_encoding_roundtrips.2.2.2.2.2.2.2.2.2.2.2.2.2.1
      [1, 0, 0, 0, 7, 2, 0, 0, 0, 1, 2]
      { header := { type_url := [7], value := [1, 2] } } (by decide),
   C4_attribute_encoding_roundtrips.2.2.2.2.2.2.2.2.2.2.2.2.2.2 [0, 255] (by decide)⟩

end IbcRs
